import Mathlib

set_option maxHeartbeats 1000000

/-!
Verification development for the LightBase / LightTip / L-runtime component framework.

Shallow embedding conventions:
* DOM elements are nodes of an inductive `DomTree` carrying their `id` attribute (`eid`),
  the `data-light-name` ownership marker (`Option String`), and their children
  in document order.  An element detached from the document is not modelled;
  reading attributes of a detached element yields `none` here.
* Instances are records (`Inst`) addressed by a numeric tag standing for JS object
  identity; the global `t_lightinstances` registry maps `(class name, id)` pairs to
  tags.  Class buckets of the JS registry are not modelled separately: creating an
  empty bucket is unobservable through `claim`/`release`/`lookup`.
* Host-side effects (removing a DOM listener, running a disposer, clearTimeout /
  clearInterval / cancelAnimationFrame, AbortController.abort, danger-level logging)
  are recorded in an append-only event log; `Ev.destructBegin t` instruments entry
  into the body of `destruct()` of instance `t` so the cascade order is observable.
  Info-level logging is not tracked (no claim mentions it).
* Exceptions are modelled by an `Option Err` result channel; `L.assert` throws, so
  the guard branches of `destruct()` return the corresponding error code.
* Misbehaving collaborators are modelled by a behaviour oracle `Beh`: `L.off` may
  throw for a given listener record, a disposer may throw when invoked.  In the
  source a disposer's exception is swallowed by `catch(_)\x7b\x7d`, so
  `Beh.disposerThrows` has no observable effect; it only documents scenarios.
* Recursion of the destruct cascade through the registry is bounded by explicit
  fuel; running out of fuel yields `Err.fuel`, which no reachable claim scenario hits.
-/

/-- Listener record tracked by `addEvent`: `\x7btarget, type, selector, handler, opts\x7d`
(options are irrelevant to every claim and omitted; the handler is an opaque id). -/
structure ListenerRec where
  target : String
  etype : String
  selector : Option String
  handler : Nat
deriving DecidableEq

/-- A LightBase instance: identity, lifecycle flags and the tracked resource sets.
`this.root` is the element whose id equals `id` (the constructor resolves it by
`document.getElementById(id)`), so no separate root field is needed.
JS `Set`s are lists in insertion order without duplicates (see `addToSet`). -/
structure Inst where
  cls : String
  id : String
  isDestructing : Bool
  isDestructed : Bool
  listeners : List ListenerRec
  disposers : List Nat
  timeouts : List Nat
  intervals : List Nat
  rafs : List Nat
  aborts : List Nat
deriving DecidableEq

/-- A DOM element: id attribute, `data-light-name` marker, children in document order. -/
inductive DomTree where
  | node (eid : String) (marker : Option String) (children : List DomTree)

/-- Observable host effects, in chronological order. -/
inductive Ev where
  | destructBegin (t : Nat)
  | off (r : ListenerRec)
  | disposerRun (d : Nat)
  | clearT (n : Nat)
  | clearI (n : Nat)
  | cancelF (n : Nat)
  | abort (n : Nat)
  | logDanger
deriving DecidableEq

/-- A thrown JS error, identified by the `L.assert` code (or internal markers). -/
inductive Err where
  | thrown (code : String)
  | offThrew
  | fuel
deriving DecidableEq

/-- Behaviour oracle for external collaborators that may throw. -/
structure Beh where
  offThrows : ListenerRec → Bool
  disposerThrows : Nat → Bool

/-- Global state: the document, the `t_lightinstances` registry (keyed by
(class name, id)), the instance heap (keyed by object tag) and the effect log. -/
structure World where
  dom : DomTree
  reg : String × String → Option Nat
  insts : Nat → Option Inst
  evs : List Ev

/-! ### DOM tree operations -/

mutual
/-- `document.getElementById`: first element with the given id, in document order. -/
def findById : DomTree → String → Option DomTree
  | DomTree.node e m cs, x =>
    if e = x then some (DomTree.node e m cs) else findByIdL cs x

def findByIdL : List DomTree → String → Option DomTree
  | [], _ => none
  | c :: cs, x =>
    match findById c x with
    | some r => some r
    | none => findByIdL cs x
end

mutual
/-- Remove the `data-light-name` marker of the first element with the given id
(`el.removeAttribute`); the Bool reports whether a match was found. -/
def remM1 : DomTree → String → DomTree × Bool
  | DomTree.node e m cs, x =>
    if e = x then (DomTree.node e none cs, true)
    else
      let r := remM1L cs x
      (DomTree.node e m r.1, r.2)

def remM1L : List DomTree → String → List DomTree × Bool
  | [], _ => ([], false)
  | c :: cs, x =>
    let r := remM1 c x
    if r.2 then (r.1 :: cs, true)
    else
      let r2 := remM1L cs x
      (c :: r2.1, r2.2)
end

def removeMarkerById (d : DomTree) (x : String) : DomTree := (remM1 d x).1

mutual
/-- Set the marker of the first element with the given id (`el.setAttribute`). -/
def setM1 : DomTree → String → String → DomTree × Bool
  | DomTree.node e m cs, x, v =>
    if e = x then (DomTree.node e (some v) cs, true)
    else
      let r := setM1L cs x v
      (DomTree.node e m r.1, r.2)

def setM1L : List DomTree → String → String → List DomTree × Bool
  | [], _, _ => ([], false)
  | c :: cs, x, v =>
    let r := setM1 c x v
    if r.2 then (r.1 :: cs, true)
    else
      let r2 := setM1L cs x v
      (c :: r2.1, r2.2)
end

def setMarkerById (d : DomTree) (x v : String) : DomTree := (setM1 d x v).1

mutual
/-- `L.dom.clear`: drop all children of the first element with the given id. -/
def clearCh1 : DomTree → String → DomTree × Bool
  | DomTree.node e m cs, x =>
    if e = x then (DomTree.node e m [], true)
    else
      let r := clearCh1L cs x
      (DomTree.node e m r.1, r.2)

def clearCh1L : List DomTree → String → List DomTree × Bool
  | [], _ => ([], false)
  | c :: cs, x =>
    let r := clearCh1 c x
    if r.2 then (r.1 :: cs, true)
    else
      let r2 := clearCh1L cs x
      (c :: r2.1, r2.2)
end

def clearChildrenById (d : DomTree) (x : String) : DomTree := (clearCh1 d x).1

/-- Marker carried by the (first) element with the given id, `none` when either
the element is absent or it carries no `data-light-name` attribute. -/
def markerAt (d : DomTree) (x : String) : Option String :=
  match findById d x with
  | some (DomTree.node _ m _) => m
  | none => none

mutual
/-- Strict descendants carrying a `data-light-name` attribute, in document order,
paired with their depth below the scan root (`_collectOwnedDescendantsDeepFirst`
computes the same depth by walking `parentElement` up to `this.root`). -/
def ownedT : DomTree → Nat → List (String × Nat)
  | DomTree.node e m cs, d =>
    (if m.isSome then [(e, d)] else []) ++ ownedL cs (d + 1)

def ownedL : List DomTree → Nat → List (String × Nat)
  | [], _ => []
  | c :: cs, d => ownedT c d ++ ownedL cs d
end

/-- Owned descendant (id, depth) pairs of the element with the given id, sorted by
depth descending (the JS `nodes.sort((a, b) => depth(b) - depth(a))`; both that
sort and `List.insertionSort` with this total relation are stable). -/
def sortedOwnedPairs (d : DomTree) (x : String) : List (String × Nat) :=
  match findById d x with
  | none => []
  | some (DomTree.node _ _ cs) =>
    List.insertionSort (fun a b => b.2 ≤ a.2) (ownedL cs 1)

/-- Element ids visited by the destruct cascade, deepest first. -/
def collectOwned (d : DomTree) (x : String) : List String :=
  (sortedOwnedPairs d x).map Prod.fst

/-! ### World helpers -/

def updInst (w : World) (t : Nat) (f : Inst → Inst) : World :=
  { w with insts := fun t' => if t' = t then (w.insts t').map f else w.insts t' }

def emit (w : World) (e : Ev) : World :=
  { w with evs := w.evs ++ [e] }

def emitAll (w : World) (es : List Ev) : World :=
  { w with evs := w.evs ++ es }

def regDel (w : World) (k : String × String) : World :=
  { w with reg := fun k' => if k' = k then none else w.reg k' }

def regPut (w : World) (k : String × String) (t : Nat) : World :=
  { w with reg := fun k' => if k' = k then some t else w.reg k' }

/-- JS `Set.add`: append unless already present (iteration in insertion order). -/
def addToSet (l : List Nat) (n : Nat) : List Nat :=
  if n ∈ l then l else l ++ [n]

/-- Events before `w.evs` grew into `w'.evs`: the newly appended suffix. -/
def newEvs (w w' : World) : List Ev := w'.evs.drop w.evs.length

/-! ### Constructor (LightBase.constructor) -/

/-- Fresh instance record built by the constructor: empty resource sets, `Active`
lifecycle (both flags false). -/
def freshInst (cls id : String) : Inst :=
  { cls := cls, id := id, isDestructing := false, isDestructed := false,
    listeners := [], disposers := [], timeouts := [], intervals := [],
    rafs := [], aborts := [] }

/-- `new LightBase(id)` for a concrete subclass named `cls`, allocating object tag
`tag`.  Mirrors the source order: id validation, registry vacancy, element
existence, ownership-marker compatibility (all `L.assert`, fail-fast, no mutation),
then marker attach, field initialisation and, last, the registry claim.
The JS falsiness of an empty `data-light-name` (`!owner`) is preserved. -/
def construct (w : World) (cls id : String) (tag : Nat) : World × Option Err :=
  if ¬(id ≠ "" ∧ id.data.contains '#' = false) then
    (w, some (Err.thrown "LightBase.INVALID_CONSTRUCTOR_ID"))
  else if (w.reg (cls, id)).isSome then
    (w, some (Err.thrown "E_INSTANCE_EXISTS"))
  else
    match findById w.dom id with
    | none => (w, some (Err.thrown "E_NO_ELEMENT"))
    | some (DomTree.node _ marker _) =>
      let conflict := match marker with
        | none => false
        | some o => o ≠ "" ∧ o ≠ cls
      if conflict then (w, some (Err.thrown "LightBase.CONFLICT_OWNER"))
      else
        let w1 := { w with dom := setMarkerById w.dom id cls }
        let w2 := { w1 with insts := fun t' => if t' = tag then some (freshInst cls id) else w1.insts t' }
        (regPut w2 (cls, id) tag, none)

/-! ### Resource acquisition methods (none of them inspects the lifecycle flags,
exactly as in the source). -/

/-- `addEvent(target, ...)` after target resolution: a string selector that matches
nothing resolves to `none` and the method returns a no-op disposer without
subscribing or recording anything (`if (!t) return () => \x7b\x7d`).  The returned
Bool tells whether a removable record was created (i.e. a real disposer). -/
def addEvent (w : World) (t : Nat) (resolved : Option String) (etype : String)
    (sel : Option String) (handler : Nat) : World × Bool :=
  match resolved with
  | none => (w, false)
  | some tgt =>
    let r : ListenerRec := { target := tgt, etype := etype, selector := sel, handler := handler }
    (updInst w t (fun i => { i with listeners := i.listeners ++ [r] }), true)

def addDisposer (w : World) (t : Nat) (d : Nat) : World :=
  updInst w t (fun i => { i with disposers := i.disposers ++ [d] })

/-- `observeResize` delegates to `L.observe.resize` (whose disposer is `d`) and
records it via `addDisposer`. -/
def observeResize (w : World) (t : Nat) (d : Nat) : World := addDisposer w t d

def observeIntersection (w : World) (t : Nat) (d : Nat) : World := addDisposer w t d

def observeMutation (w : World) (t : Nat) (d : Nat) : World := addDisposer w t d

/-- `setT`: the host returns a fresh timer id `n`; it is tracked in the set. -/
def setT (w : World) (t : Nat) (n : Nat) : World :=
  updInst w t (fun i => { i with timeouts := addToSet i.timeouts n })

def setI (w : World) (t : Nat) (n : Nat) : World :=
  updInst w t (fun i => { i with intervals := addToSet i.intervals n })

def requestFrame (w : World) (t : Nat) (n : Nat) : World :=
  updInst w t (fun i => { i with rafs := addToSet i.rafs n })

def addAbortController (w : World) (t : Nat) (n : Nat) : World :=
  updInst w t (fun i => { i with aborts := addToSet i.aborts n })

/-! ### Destruction -/

/-- `for (const rec of this._listeners) this._removeEvent(rec)`: not wrapped in
try/catch, so a throwing `L.off` aborts the remaining cleanup loop and propagates. -/
def remListeners (B : Beh) : World → List ListenerRec → World × Option Err
  | w, [] => (w, none)
  | w, r :: rs =>
    if B.offThrows r then (w, some Err.offThrew)
    else remListeners B (emit w (Ev.off r)) rs

/-- Resource cleanup, DOM clearing, marker removal and registry release
(steps 2-5 of `destruct()`), operating on the live record of instance `t`.
A disposer's exception is swallowed (`try \x7b d() \x7d catch(_)\x7b\x7d`) without
any logging; a listener-removal exception propagates. -/
def cleanup (B : Beh) (t : Nat) (w : World) : World × Option Err :=
  match w.insts t with
  | none => (w, none)
  | some j =>
    match remListeners B w j.listeners with
    | (w1, some e) => (w1, some e)
    | (w1, none) =>
      let w2 := updInst w1 t (fun k => { k with listeners := [] })
      let w3 := emitAll w2 (j.disposers.map Ev.disposerRun)
      let w4 := updInst w3 t (fun k => { k with disposers := [] })
      let w5 := emitAll w4 (j.timeouts.map Ev.clearT)
      let w6 := updInst w5 t (fun k => { k with timeouts := [] })
      let w7 := emitAll w6 (j.intervals.map Ev.clearI)
      let w8 := updInst w7 t (fun k => { k with intervals := [] })
      let w9 := emitAll w8 (j.rafs.map Ev.cancelF)
      let w10 := updInst w9 t (fun k => { k with rafs := [] })
      let w11 := emitAll w10 (j.aborts.map Ev.abort)
      let w12 := updInst w11 t (fun k => { k with aborts := [] })
      let w13 := { w12 with dom := clearChildrenById w12.dom j.id }
      let w14 := { w13 with dom := removeMarkerById w13.dom j.id }
      let w15 := if w14.reg (j.cls, j.id) = some t then regDel w14 (j.cls, j.id) else w14
      (w15, none)

/-- Cascade loop (step 1 of `destruct()`): for each captured element id, re-read
its live marker and id, resolve the registry instance, and destruct it unless it
is already destructing/destructed; a child exception is caught and logged at
danger level.  `recur` is the fuel-decremented `destructAux`. -/
def cascadeRun (recur : Nat → World → World × Option Err) : List String → World → World
  | [], w => w
  | eid :: rest, w =>
    let w' :=
      match findById w.dom eid with
      | none => w
      | some (DomTree.node _ none _) => w
      | some (DomTree.node _ (some cname) _) =>
        if cname = "" ∨ eid = "" then w
        else
          match w.reg (cname, eid) with
          | none => w
          | some ct =>
            match w.insts ct with
            | none => w
            | some ci =>
              if ci.isDestructing || ci.isDestructed then w
              else
                match recur ct w with
                | (w2, some _) => emit w2 Ev.logDanger
                | (w2, none) => w2
    cascadeRun recur rest w'

/-- `destruct()` of the instance with tag `t`.  Guards (already destructed /
destruct in progress) throw via `L.assert` and change nothing.  Otherwise the
flag `isDestructing` is set, the body runs (cascade, cleanup), and a `finally`
block unconditionally moves the instance to `Destructed`; a body exception is
re-raised after the finally, i.e. returned in the second component. -/
def destructAux (fuel : Nat) (B : Beh) (t : Nat) (w : World) : World × Option Err :=
  match fuel with
  | 0 => (w, some Err.fuel)
  | fuel + 1 =>
    match w.insts t with
    | none => (w, some (Err.thrown "E_NO_INSTANCE"))
    | some i =>
      if i.isDestructed then (w, some (Err.thrown "LightBase.ALREADY_DESTRUCTED"))
      else if i.isDestructing then (w, some (Err.thrown "LightBase.DESTRUCT_IN_PROGRESS"))
      else
        let wA := emit (updInst w t (fun j => { j with isDestructing := true })) (Ev.destructBegin t)
        let wB := cascadeRun (fun ct wc => destructAux fuel B ct wc) (collectOwned wA.dom i.id) wA
        let r := cleanup B t wB
        (updInst r.1 t (fun j => { j with isDestructing := false, isDestructed := true }), r.2)

/-- Exact effect trace of a fully successful cleanup of record `j`. -/
def fullCleanEvs (j : Inst) : List Ev :=
  j.listeners.map Ev.off ++ j.disposers.map Ev.disposerRun ++ j.timeouts.map Ev.clearT
    ++ j.intervals.map Ev.clearI ++ j.rafs.map Ev.cancelF ++ j.aborts.map Ev.abort

/-- Record after all resource sets were released. -/
def cleanedInst (j : Inst) : Inst :=
  { j with listeners := [], disposers := [], timeouts := [], intervals := [],
           rafs := [], aborts := [] }

/-! ### LightTip placement engine (src/unnamed/part_001)

Sides and alignments are modelled as enumerations (the source uses the strings
`top/bottom/left/right` and `start/center/end` produced by `parsePlacement`);
coordinates are rationals, `Math.round(x)` is `⌊x + 1/2⌋`, and `offset|0` is the
JS ToInt32 truncation. -/

inductive Side where
  | top
  | bottom
  | left
  | right
deriving DecidableEq

inductive Align where
  | start
  | center
  | end'
deriving DecidableEq

structure Placement where
  side : Side
  align : Align
  auto : Bool
deriving DecidableEq

/-- An anchor `getBoundingClientRect()`; `right`/`bottom` are derived. -/
structure Rect where
  left : ℚ
  top : ℚ
  width : ℚ
  height : ℚ
deriving DecidableEq

def Rect.right (r : Rect) : ℚ := r.left + r.width

def Rect.bottom (r : Rect) : ℚ := r.top + r.height

structure TipSize where
  width : ℚ
  height : ℚ
deriving DecidableEq

structure TipPos where
  left : Int
  top : Int
deriving DecidableEq

/-- JS `Math.round`: half-up, i.e. `⌊x + 1/2⌋`. -/
def jsRound (q : ℚ) : Int := Int.floor (q + 1 / 2)

/-- Truncation toward zero, the first step of JS ToInt32. -/
def ratTrunc (q : ℚ) : Int := if q < 0 then Int.ceil q else Int.floor q

/-- JS `x|0` on a (finite) number. -/
def toInt32 (q : ℚ) : Int := (ratTrunc q + 2 ^ 31) % 2 ^ 32 - 2 ^ 31

/-- `computePosition(anchorRect, tipSize, placement, offset)`. -/
def computePosition (a : Rect) (s : TipSize) (p : Placement) (offset : ℚ) : TipPos :=
  let o : ℚ := (toInt32 offset : ℚ)
  match p.side with
  | Side.right =>
    let left := a.right + o
    let top :=
      match p.align with
      | Align.start => a.top
      | Align.end' => a.bottom - s.height
      | Align.center => a.top + (a.height - s.height) / 2
    { left := jsRound left, top := jsRound top }
  | Side.left =>
    let left := a.left - s.width - o
    let top :=
      match p.align with
      | Align.start => a.top
      | Align.end' => a.bottom - s.height
      | Align.center => a.top + (a.height - s.height) / 2
    { left := jsRound left, top := jsRound top }
  | Side.top =>
    let top := a.top - s.height - o
    let left :=
      match p.align with
      | Align.start => a.left
      | Align.end' => a.right - s.width
      | Align.center => a.left + (a.width - s.width) / 2
    { left := jsRound left, top := jsRound top }
  | Side.bottom =>
    let top := a.bottom + o
    let left :=
      match p.align with
      | Align.start => a.left
      | Align.end' => a.right - s.width
      | Align.center => a.left + (a.width - s.width) / 2
    { left := jsRound left, top := jsRound top }

/-- `fitsViewport(pos, tipSize, margin)` against viewport `vw × vh`. -/
def fitsViewport (vw vh : ℚ) (pos : TipPos) (s : TipSize) (margin : ℚ) : Bool :=
  decide (margin ≤ (pos.left : ℚ) ∧ margin ≤ (pos.top : ℚ) ∧
    (pos.left : ℚ) + s.width ≤ vw - margin ∧ (pos.top : ℚ) + s.height ≤ vh - margin)

def oppositeSide : Side → Side
  | Side.top => Side.bottom
  | Side.bottom => Side.top
  | Side.left => Side.right
  | Side.right => Side.left

/-- `fallbackPlacements(preferred)`: preferred, the two other alignments on the same
side, the opposite side at the original alignment, the two perpendicular sides at
center alignment. -/
def fallbackPlacements (pref : Placement) : List Placement :=
  let aligns := [Align.start, Align.center, Align.end']
  let others : List Placement :=
    (aligns.filter (fun a => a ≠ pref.align)).map
      (fun a => { side := pref.side, align := a, auto := true })
  let opp : List Placement := [{ side := oppositeSide pref.side, align := pref.align, auto := true }]
  let perpendicular : List Placement :=
    if pref.side = Side.top ∨ pref.side = Side.bottom then
      [{ side := Side.left, align := Align.center, auto := true },
       { side := Side.right, align := Align.center, auto := true }]
    else
      [{ side := Side.top, align := Align.center, auto := true },
       { side := Side.bottom, align := Align.center, auto := true }]
  [pref] ++ others ++ opp ++ perpendicular

/-- The `for (const p of fallbackPlacements(pref))` loop of `_positionWithArrow`:
first candidate whose computed box fits the viewport (margin 4). -/
def firstFit (vw vh : ℚ) (a : Rect) (s : TipSize) (offset : ℚ) :
    List Placement → Option (TipPos × Placement)
  | [] => none
  | p :: ps =>
    let testPos := computePosition a s p offset
    if fitsViewport vw vh testPos s 4 then some (testPos, p)
    else firstFit vw vh a s offset ps

/-- Placement selection of `_positionWithArrow`: `chosen`/`pos` start at the
preferred placement; in auto mode the first fitting fallback candidate replaces
them, and when no candidate fits they keep their initial (preferred) values. -/
def selectPlacement (vw vh : ℚ) (a : Rect) (s : TipSize) (pref : Placement) (offset : ℚ) :
    TipPos × Placement :=
  let pos := computePosition a s pref offset
  if pref.auto then
    match firstFit vw vh a s offset (fallbackPlacements pref) with
    | some r => r
    | none => (pos, pref)
  else (pos, pref)

/-- Whether a side sits on the vertical axis (placement above/below the anchor);
two sides are perpendicular when this differs. -/
def sideAxisVertical : Side → Bool
  | Side.top => true
  | Side.bottom => true
  | Side.left => false
  | Side.right => false

/-! ### L runtime: path lookup, interpolation and assert (src/unnamed/part_000) -/

/-- JS values as far as `getByPath` / `L.interpolate` / `L.assert` observe them
(numbers restricted to integers; none of the claims involves fractional numbers). -/
inductive JVal where
  | str (s : String)
  | num (n : Int)
  | bool (b : Bool)
  | obj (fields : List (String × JVal))
  | arr (elems : List JVal)
  | null
  | undef

mutual
/-- JS `String(v)`. -/
def jsToString : JVal → String
  | JVal.str s => s
  | JVal.num n => toString n
  | JVal.bool b => if b then "true" else "false"
  | JVal.obj _ => "[object Object]"
  | JVal.arr xs => jsToStringElems xs
  | JVal.null => "null"
  | JVal.undef => "undefined"
termination_by structural v => v

/-- `Array.prototype.toString`: comma-joined elements, null/undefined empty. -/
def jsToStringElems : List JVal → String
  | [] => ""
  | [JVal.null] => ""
  | [JVal.undef] => ""
  | [v] => jsToString v
  | JVal.null :: y :: xs => "," ++ jsToStringElems (y :: xs)
  | JVal.undef :: y :: xs => "," ++ jsToStringElems (y :: xs)
  | v :: y :: xs => jsToString v ++ "," ++ jsToStringElems (y :: xs)
termination_by structural l => l
end

/-- A token of `pathToTokens`: a bracketed numeric index or a key. -/
inductive PathTok where
  | idx (n : Nat)
  | key (s : String)
deriving DecidableEq

/-- Leading decimal digits (the `\d+` of the first regex alternative). -/
def grabDigits : List Char → List Char × List Char
  | [] => ([], [])
  | c :: cs =>
    if c.isDigit then
      let r := grabDigits cs
      (c :: r.1, r.2)
    else ([], c :: cs)

/-- Characters excluded by the `[^[.\]]+` alternative. -/
def isPathStop (c : Char) : Bool := c = '[' ∨ c = '.' ∨ c = ']'

/-- Maximal run of non-stop characters. -/
def grabKey : List Char → List Char × List Char
  | [] => ([], [])
  | c :: cs =>
    if isPathStop c then ([], c :: cs)
    else
      let r := grabKey cs
      (c :: r.1, r.2)

def natOfDigits (ds : List Char) : Nat :=
  ds.foldl (fun n c => n * 10 + (c.toNat - '0'.toNat)) 0

/-- `pathToTokens`: scan for `/\[(\d+)\]|([^[.\]]+)/g`, the first alternative
(bracketed digits) tried first at each position, the scan advancing one character
past any position where neither alternative matches.  Fuel bounds the recursion;
each step consumes at least one character, so `fuel = length` never truncates. -/
def pathToTokensF (fuel : Nat) (l : List Char) : List PathTok :=
  match fuel, l with
  | 0, _ => []
  | _ + 1, [] => []
  | fuel + 1, '[' :: cs =>
    let r := grabDigits cs
    (match r.1, r.2 with
     | _ :: _, ']' :: rest => PathTok.idx (natOfDigits r.1) :: pathToTokensF fuel rest
     | _, _ => pathToTokensF fuel cs)
  | fuel + 1, c :: cs =>
    if isPathStop c then pathToTokensF fuel cs
    else
      let r := grabKey (c :: cs)
      PathTok.key (String.mk r.1) :: pathToTokensF fuel r.2

def pathToTokens (s : String) : List PathTok := pathToTokensF s.data.length s.data

def lookupField : List (String × JVal) → String → JVal
  | [], _ => JVal.undef
  | (k, v) :: fs, x => if k = x then v else lookupField fs x

/-- JS property access `cur[t]` as far as `getByPath` exercises it. -/
def jsIndex : JVal → PathTok → JVal
  | JVal.obj fs, PathTok.key k => lookupField fs k
  | JVal.obj fs, PathTok.idx n => lookupField fs (toString n)
  | JVal.arr xs, PathTok.idx n => xs.getD n JVal.undef
  | JVal.arr xs, PathTok.key k =>
    if k = "length" then JVal.num xs.length
    else
      match k.toNat? with
      | some n => if toString n = k then xs.getD n JVal.undef else JVal.undef
      | none => JVal.undef
  | JVal.str s, PathTok.idx n =>
    match s.data.get? n with
    | some c => JVal.str (String.mk [c])
    | none => JVal.undef
  | JVal.str s, PathTok.key k =>
    if k = "length" then JVal.num s.length
    else
      match k.toNat? with
      | some n =>
        if toString n = k then
          match s.data.get? n with
          | some c => JVal.str (String.mk [c])
          | none => JVal.undef
        else JVal.undef
      | none => JVal.undef
  | JVal.num _, _ => JVal.undef
  | JVal.bool _, _ => JVal.undef
  | JVal.null, _ => JVal.undef
  | JVal.undef, _ => JVal.undef

/-- JS `v == null`. -/
def isNullish : JVal → Bool
  | JVal.null => true
  | JVal.undef => true
  | _ => false

/-- `getByPath(obj, path)` with the default `def = undefined`:
`if (cur == null) return def; cur = cur[t]` per token, and the final
`cur === undefined ? def : cur` is the identity for that default. -/
def getByPath : JVal → List PathTok → JVal
  | v, [] => v
  | v, t :: ts => if isNullish v then JVal.undef else getByPath (jsIndex v t) ts

/-- JS `\s` restricted to its ASCII members (claims never involve exotic spaces). -/
def isJsWs (c : Char) : Bool := c = ' ' ∨ c = '\t' ∨ c = '\n' ∨ c = '\r'

/-- Character class `[\w.[\]0-9]` of the interpolation placeholder path. -/
def isPathChar (c : Char) : Bool :=
  c.isAlphanum || c = '_' || c = '.' || c = '[' || c = ']'

def dropWs : List Char → List Char
  | [] => []
  | c :: cs => if isJsWs c then dropWs cs else c :: cs

/-- Maximal run of path characters. -/
def grabPath : List Char → List Char × List Char
  | [] => ([], [])
  | c :: cs =>
    if isPathChar c then
      let r := grabPath cs
      (c :: r.1, r.2)
    else ([], c :: cs)

/-- After an opening `\x7b\x7b`, try to match `\s*([\w.[\]0-9]+)\s*\x7d\x7d`
(deterministic: the three character classes are pairwise disjoint and none
contains `\x7d`).  Returns the captured path and the rest of the input. -/
def tryPh (l : List Char) : Option (String × List Char) :=
  let r := grabPath (dropWs l)
  match r.1 with
  | [] => none
  | _ =>
    match dropWs r.2 with
    | '}' :: '}' :: rest => some (String.mk r.1, rest)
    | _ => none

/-- Replacement for a matched placeholder: looked-up value, `'' ` for nullish. -/
def substValue (data : JVal) (p : String) : String :=
  let v := getByPath data (pathToTokens p)
  if isNullish v then "" else jsToString v

/-- `String.prototype.replace` with the global placeholder regex: left-to-right
scan, non-overlapping, advancing one character on failure.  Fuel bounds the
recursion; each step consumes at least one character. -/
def interpolateAuxF (data : JVal) : Nat → List Char → List Char
  | 0, l => l
  | _ + 1, [] => []
  | fuel + 1, c :: cs =>
    if c = '{' then
      match cs with
      | c2 :: cs2 =>
        if c2 = '{' then
          match tryPh cs2 with
          | some (p, rest) => (substValue data p).data ++ interpolateAuxF data fuel rest
          | none => '{' :: interpolateAuxF data fuel cs
        else c :: interpolateAuxF data fuel cs
      | [] => c :: interpolateAuxF data fuel cs
    else c :: interpolateAuxF data fuel cs

/-- `L.interpolate(tpl, data)`. -/
def interpolate (tpl : String) (data : JVal) : String :=
  String.mk (interpolateAuxF data tpl.data.length tpl.data)

/-- The typed error thrown by `L.assert`: message, machine-readable `code`, and
`info` carrying the (possibly wrapped) context. -/
structure LErr where
  msg : String
  code : String
  info : JVal

def lookupStr : List (String × String) → String → Option String
  | [], _ => none
  | (k, v) :: fs, x => if k = x then some v else lookupStr fs x

def lookupNs : List (String × List (String × String)) → String → Option (List (String × String))
  | [], _ => none
  | (k, v) :: fs, x => if k = x then some v else lookupNs fs x

/-- JS falsiness of the values `L.assert` can meet. -/
def jsFalsy : JVal → Bool
  | JVal.str s => s = ""
  | JVal.num n => n = 0
  | JVal.bool b => !b
  | JVal.null => true
  | JVal.undef => true
  | JVal.obj _ => false
  | JVal.arr _ => false

/-- `const data = (typeof dataOrMessage === 'object' && dataOrMessage !== null)
? dataOrMessage : \x7b message: String(dataOrMessage || code || 'Assertion failed') \x7d`. -/
def assertData (code : String) (d : JVal) : JVal :=
  match d with
  | JVal.obj fs => JVal.obj fs
  | JVal.arr xs => JVal.arr xs
  | v =>
    JVal.obj [("message",
      JVal.str (if jsFalsy v then (if code = "" then "Assertion failed" else code)
                else jsToString v))]

/-- `L.assert(cond, code, dataOrMessage)` over given namespaced and global error
tables: `none` when the condition holds, otherwise the thrown `LErr`.  Template
resolution follows the source, including the JS falsiness of empty templates. -/
def lAssert (cond : Bool) (code : String) (d : JVal)
    (errNs : List (String × List (String × String)))
    (errGlobal : List (String × String)) : Option LErr :=
  if cond then none
  else
    let tplNs :=
      if code ≠ "" ∧ code.contains '.' then
        let ns := (code.splitOn ".").headD ""
        let c := code.drop (ns.length + 1)
        ((lookupNs errNs ns).bind (fun st => lookupStr st c)).getD ""
      else ""
    let g := (lookupStr errGlobal code).getD ""
    let tpl := if tplNs = "" then (if g = "" then "\x7b\x7bmessage\x7d\x7d" else g) else tplNs
    let data := assertData code d
    some { msg := interpolate tpl data,
           code := if code = "" then "E_ASSERT_FAILED" else code,
           info := data }

/-- The global `L.errors` table of part_000. -/
def lightGlobalErrors : List (String × String) :=
  [("E_INVALID_ID", "Invalid id \"\x7b\x7bid\x7d\x7d\""),
   ("E_NO_ELEMENT", "No element found with id \"\x7b\x7bid\x7d\x7d\""),
   ("E_INSTANCE_EXISTS", "Instance \"\x7b\x7bcls\x7d\x7d\" for #\x7b\x7bid\x7d\x7d already exists"),
   ("E_ALREADY_DESTRUCTED", "Instance \"\x7b\x7bcls\x7d\x7d\" for #\x7b\x7bid\x7d\x7d already destructed"),
   ("E_DESTRUCT_IN_PROGRESS", "Destruction already in progress for \"\x7b\x7bcls\x7d\x7d\" #\x7b\x7bid\x7d\x7d"),
   ("E_NO_ROOT", "Root element is required for \"\x7b\x7bcls\x7d\x7d\""),
   ("E_ASSERT_FAILED", "Assertion failed: \x7b\x7bmessage\x7d\x7d")]

/-! ### Invariant vocabulary for the destruct proofs -/

/-- Instance record after a complete `destruct()`: resource sets released,
terminal lifecycle flags. -/
def destructedInst (i : Inst) : Inst :=
  { cleanedInst i with isDestructing := false, isDestructed := true }

/-- Every effect a cleanup of record `j` can emit satisfies `P`. -/
def instEvsOK (P : Ev → Prop) (j : Inst) : Prop :=
  (∀ r ∈ j.listeners, P (Ev.off r)) ∧ (∀ d ∈ j.disposers, P (Ev.disposerRun d)) ∧
  (∀ n ∈ j.timeouts, P (Ev.clearT n)) ∧ (∀ n ∈ j.intervals, P (Ev.clearI n)) ∧
  (∀ n ∈ j.rafs, P (Ev.cancelF n)) ∧ (∀ n ∈ j.aborts, P (Ev.abort n))

/-- Every destructible instance (neither destructing nor destructed) only yields
`P`-events when destructed. -/
def HGood (P : Ev → Prop) (w : World) : Prop :=
  ∀ t j, w.insts t = some j → j.isDestructing = false → j.isDestructed = false →
    instEvsOK P j

/-- Entry/exit relation satisfied by every step of the destruct cascade:
`P`-boundedness of new events, preservation of destructing records and of their
registry entries, and no instance ever disappears from the heap. -/
def DSpec (P : Ev → Prop) (w w' : World) : Prop :=
  (HGood P w → (∃ new, w'.evs = w.evs ++ new ∧ ∀ e ∈ new, P e) ∧ HGood P w') ∧
  (∀ t₀ i₀, w.insts t₀ = some i₀ → i₀.isDestructing = true →
    w'.insts t₀ = some i₀ ∧
    ∀ k, w.reg k = some t₀ ∨ w.reg k = none → w'.reg k = w.reg k) ∧
  (∀ t₀, (w.insts t₀).isSome → (w'.insts t₀).isSome)

/-- Marker of the `destructBegin` instrumentation events. -/
def isBeginEv : Ev → Bool
  | Ev.destructBegin _ => true
  | _ => false

/-! ### Concrete scenarios used by witnesses and counterexamples -/

def B0 : Beh := { offThrows := fun _ => false, disposerThrows := fun _ => false }

def lrec1 : ListenerRec := { target := "#btn", etype := "click", selector := none, handler := 1 }

/-- Parent with one listener, one disposer and one handle of each timer kind. -/
def instP : Inst :=
  { cls := "P", id := "p", isDestructing := false, isDestructed := false,
    listeners := [lrec1], disposers := [5], timeouts := [10], intervals := [11],
    rafs := [12], aborts := [13] }

def instC : Inst :=
  { cls := "C", id := "c", isDestructing := false, isDestructed := false,
    listeners := [], disposers := [], timeouts := [20], intervals := [], rafs := [],
    aborts := [] }

/-- Parent `p` owning child `c`, both registered and Active. -/
def W1 : World :=
  { dom := DomTree.node "doc" none
      [DomTree.node "p" (some "P") [DomTree.node "c" (some "C") []]],
    reg := fun k => if k = ("P", "p") then some 0 else if k = ("C", "c") then some 1 else none,
    insts := fun t => if t = 0 then some instP else if t = 1 then some instC else none,
    evs := [] }

/-- Parent `p` with marked descendants `a` (depth 1) and `b` (depth 2, inside `a`). -/
def W2 : World :=
  { dom := DomTree.node "doc" none
      [DomTree.node "p" (some "P")
        [DomTree.node "a" (some "CA") [DomTree.node "b" (some "CB") []]]],
    reg := fun k =>
      if k = ("P", "p") then some 0 else if k = ("CA", "a") then some 1
      else if k = ("CB", "b") then some 2 else none,
    insts := fun t =>
      if t = 0 then some (freshInst "P" "p") else if t = 1 then some (freshInst "CA" "a")
      else if t = 2 then some (freshInst "CB" "b") else none,
    evs := [] }

/-- An instance that already reached `Destructed`. -/
def instDead : Inst := { freshInst "A" "x" with isDestructed := true }

def W3 : World :=
  { dom := DomTree.node "doc" none [DomTree.node "x" none []],
    reg := fun _ => none,
    insts := fun t => if t = 0 then some instDead else none,
    evs := [] }

/-- A single Active registered instance on element `x`. -/
def W5 : World :=
  { dom := DomTree.node "doc" none [DomTree.node "x" (some "A") []],
    reg := fun k => if k = ("A", "x") then some 0 else none,
    insts := fun t => if t = 0 then some (freshInst "A" "x") else none,
    evs := [] }

/-- An Active instance holding one disposer (id 7). -/
def inst6a : Inst := { freshInst "A" "x" with disposers := [7] }

def W6a : World :=
  { dom := DomTree.node "doc" none [DomTree.node "x" (some "A") []],
    reg := fun k => if k = ("A", "x") then some 0 else none,
    insts := fun t => if t = 0 then some inst6a else none,
    evs := [] }

/-- Behaviour where exactly disposer 7 throws when invoked. -/
def B6a : Beh := { offThrows := fun _ => false, disposerThrows := fun d => d = 7 }

/-- Child holding a listener whose removal will throw. -/
def inst6c : Inst := { freshInst "C" "c" with listeners := [lrec1] }

def W6b : World :=
  { dom := DomTree.node "doc" none
      [DomTree.node "p" (some "P") [DomTree.node "c" (some "C") []]],
    reg := fun k => if k = ("P", "p") then some 0 else if k = ("C", "c") then some 1 else none,
    insts := fun t => if t = 0 then some (freshInst "P" "p") else if t = 1 then some inst6c
      else none,
    evs := [] }

/-- Behaviour where `L.off` throws exactly for `lrec1`. -/
def B6b : Beh := { offThrows := fun r => r = lrec1, disposerThrows := fun _ => false }

/-- A first instance of kind `A` live on element `x` (for duplicate construction). -/
def W4 : World :=
  { dom := DomTree.node "doc" none [DomTree.node "x" (some "A") []],
    reg := fun k => if k = ("A", "x") then some 0 else none,
    insts := fun t => if t = 0 then some (freshInst "A" "x") else none,
    evs := [] }

/-- Unclaimed element `x` already marked by kind `A` (re-attachment case). -/
def W8a : World :=
  { dom := DomTree.node "doc" none [DomTree.node "x" (some "A") []],
    reg := fun _ => none, insts := fun _ => none, evs := [] }

/-- Unclaimed element `x` marked by a different kind `B`. -/
def W8b : World :=
  { dom := DomTree.node "doc" none [DomTree.node "x" (some "B") []],
    reg := fun _ => none, insts := fun _ => none, evs := [] }

def prefC7 : Placement := { side := Side.top, align := Align.start, auto := true }

def lastC7 : Placement := { side := Side.right, align := Align.center, auto := true }

def rectC7 : Rect := { left := 100, top := 100, width := 20, height := 10 }

def sizeC7 : TipSize := { width := 50, height := 50 }

/-- Events that cannot collide with the resources tracked by record `i`
(used to show the cascade can never cancel one of `i`'s own handles). -/
def exclEv (i : Inst) (e : Ev) : Prop :=
  (∀ r ∈ i.listeners, e ≠ Ev.off r) ∧ (∀ n ∈ i.timeouts, e ≠ Ev.clearT n) ∧
  (∀ n ∈ i.intervals, e ≠ Ev.clearI n) ∧ (∀ n ∈ i.rafs, e ≠ Ev.cancelF n) ∧
  (∀ n ∈ i.aborts, e ≠ Ev.abort n)

/-- Spec-side description (from the claim text) of the auto-mode candidate list
shape: the preferred placement first, then the two other alignments on the same
side, then the opposite side at the original alignment, then the two
perpendicular sides at center alignment. -/
def candidateOrderSpec (s0 : Side) (a0 : Align) (c : List Placement) : Bool :=
  match c with
  | [p0, p1, p2, p3, p4, p5] =>
    decide (p0 = { side := s0, align := a0, auto := true }) &&
    decide (p1.side = s0) && decide (p1.align ≠ a0) &&
    decide (p2.side = s0) && decide (p2.align ≠ a0) && decide (p1 ≠ p2) &&
    decide (p3 = { side := oppositeSide s0, align := a0, auto := true }) &&
    decide (p4.align = Align.center) &&
    decide (sideAxisVertical p4.side ≠ sideAxisVertical s0) &&
    decide (p5.align = Align.center) &&
    decide (sideAxisVertical p5.side ≠ sideAxisVertical s0) &&
    decide (p4 ≠ p5)
  | _ => false

/-! ## Theorems -/

/-! ### DOM tree lemmas -/

mutual
theorem remM1_false : ∀ (d : DomTree) (x : String),
    (remM1 d x).2 = false → (remM1 d x).1 = d ∧ findById d x = none
  | DomTree.node e m cs, x => by
    intro h
    by_cases he : e = x
    · exfalso
      simp [remM1, he] at h
    · have h' : (remM1L cs x).2 = false := by
        simp only [remM1, if_neg he] at h
        exact h
      rcases remM1L_false cs x h' with ⟨h1, h2⟩
      constructor
      · simp [remM1, if_neg he, h1]
      · simp [findById, if_neg he, h2]

theorem remM1L_false : ∀ (cs : List DomTree) (x : String),
    (remM1L cs x).2 = false → (remM1L cs x).1 = cs ∧ findByIdL cs x = none
  | [], x => by intro _; simp [remM1L, findByIdL]
  | c :: cs, x => by
    intro h
    by_cases hc : (remM1 c x).2 = true
    · exfalso
      simp [remM1L, hc] at h
    · have hcf : (remM1 c x).2 = false := by simpa using hc
      have h' : (remM1L cs x).2 = false := by
        simp only [remM1L, if_neg hc] at h
        exact h
      rcases remM1_false c x hcf with ⟨h1, h2⟩
      rcases remM1L_false cs x h' with ⟨h3, h4⟩
      constructor
      · simp [remM1L, if_neg hc, h1, h3]
      · simp [findByIdL, h2, h4]
end

mutual
theorem remM1_true : ∀ (d : DomTree) (x : String),
    (remM1 d x).2 = true →
      ∃ e cs, findById (remM1 d x).1 x = some (DomTree.node e none cs)
  | DomTree.node e m cs, x => by
    intro h
    by_cases he : e = x
    · exact ⟨e, cs, by simp [remM1, he, findById]⟩
    · have h' : (remM1L cs x).2 = true := by
        simp only [remM1, if_neg he] at h
        exact h
      rcases remM1L_true cs x h' with ⟨e', cs', hfind⟩
      exact ⟨e', cs', by simp [remM1, if_neg he, findById, hfind]⟩

theorem remM1L_true : ∀ (cs : List DomTree) (x : String),
    (remM1L cs x).2 = true →
      ∃ e cs', findByIdL (remM1L cs x).1 x = some (DomTree.node e none cs')
  | [], x => by intro h; simp [remM1L] at h
  | c :: cs, x => by
    intro h
    by_cases hc : (remM1 c x).2 = true
    · rcases remM1_true c x hc with ⟨e', cs', hfind⟩
      exact ⟨e', cs', by simp [remM1L, hc, findByIdL, hfind]⟩
    · have hcf : (remM1 c x).2 = false := by simpa using hc
      have h' : (remM1L cs x).2 = true := by
        simp only [remM1L, if_neg hc] at h
        exact h
      rcases remM1L_true cs x h' with ⟨e', cs', hfind⟩
      rcases remM1_false c x hcf with ⟨h1, h2⟩
      exact ⟨e', cs', by simp [remM1L, if_neg hc, findByIdL, h1, h2, hfind]⟩
end

theorem markerAt_removeMarkerById (d : DomTree) (x : String) :
    markerAt (removeMarkerById d x) x = none := by
  by_cases h : (remM1 d x).2 = true
  · rcases remM1_true d x h with ⟨e, cs, h'⟩
    simp [markerAt, removeMarkerById, h']
  · rcases remM1_false d x (by simpa using h) with ⟨h1, h2⟩
    simp [markerAt, removeMarkerById, h1, h2]

mutual
theorem setM1_false : ∀ (d : DomTree) (x v : String),
    (setM1 d x v).2 = false → findById d x = none
  | DomTree.node e m cs, x, v => by
    intro h
    by_cases he : e = x
    · exfalso
      simp [setM1, he] at h
    · have h' : (setM1L cs x v).2 = false := by
        simp only [setM1, if_neg he] at h
        exact h
      simp [findById, if_neg he, setM1L_false cs x v h']

theorem setM1L_false : ∀ (cs : List DomTree) (x v : String),
    (setM1L cs x v).2 = false → findByIdL cs x = none
  | [], x, v => by intro _; simp [findByIdL]
  | c :: cs, x, v => by
    intro h
    by_cases hc : (setM1 c x v).2 = true
    · exfalso
      simp [setM1L, hc] at h
    · have hcf : (setM1 c x v).2 = false := by simpa using hc
      have h' : (setM1L cs x v).2 = false := by
        simp only [setM1L, if_neg hc] at h
        exact h
      simp [findByIdL, setM1_false c x v hcf, setM1L_false cs x v h']
end

mutual
theorem setM1_true : ∀ (d : DomTree) (x v : String),
    (setM1 d x v).2 = true →
      ∃ e cs, findById (setM1 d x v).1 x = some (DomTree.node e (some v) cs)
  | DomTree.node e m cs, x, v => by
    intro h
    by_cases he : e = x
    · exact ⟨e, cs, by simp [setM1, he, findById]⟩
    · have h' : (setM1L cs x v).2 = true := by
        simp only [setM1, if_neg he] at h
        exact h
      rcases setM1L_true cs x v h' with ⟨e', cs', hfind⟩
      exact ⟨e', cs', by simp [setM1, if_neg he, findById, hfind]⟩

theorem setM1L_true : ∀ (cs : List DomTree) (x v : String),
    (setM1L cs x v).2 = true →
      ∃ e cs', findByIdL (setM1L cs x v).1 x = some (DomTree.node e (some v) cs')
  | [], x, v => by intro h; simp [setM1L] at h
  | c :: cs, x, v => by
    intro h
    by_cases hc : (setM1 c x v).2 = true
    · rcases setM1_true c x v hc with ⟨e', cs', hfind⟩
      exact ⟨e', cs', by simp [setM1L, hc, findByIdL, hfind]⟩
    · have hcf : (setM1 c x v).2 = false := by simpa using hc
      have h' : (setM1L cs x v).2 = true := by
        simp only [setM1L, if_neg hc] at h
        exact h
      rcases setM1L_true cs x v h' with ⟨e', cs', hfind⟩
      have h2 := setM1_false c x v hcf
      exact ⟨e', cs', by simp [setM1L, if_neg hc, findByIdL, h2, hfind]⟩
end

theorem markerAt_setMarkerById (d : DomTree) (x v : String) (u : DomTree)
    (hf : findById d x = some u) :
    markerAt (setMarkerById d x v) x = some v := by
  by_cases h : (setM1 d x v).2 = true
  · rcases setM1_true d x v h with ⟨e, cs, h'⟩
    simp [markerAt, setMarkerById, h']
  · rw [setM1_false d x v (by simpa using h)] at hf
    cases hf

/-! ### World helper lemmas -/

@[simp] theorem updInst_dom (w : World) (t : Nat) (f : Inst → Inst) :
    (updInst w t f).dom = w.dom := rfl

@[simp] theorem updInst_reg (w : World) (t : Nat) (f : Inst → Inst) :
    (updInst w t f).reg = w.reg := rfl

@[simp] theorem updInst_evs (w : World) (t : Nat) (f : Inst → Inst) :
    (updInst w t f).evs = w.evs := rfl

theorem updInst_insts_self (w : World) (t : Nat) (f : Inst → Inst) :
    (updInst w t f).insts t = (w.insts t).map f := by
  simp [updInst]

theorem updInst_insts_ne (w : World) (t : Nat) (f : Inst → Inst) (t' : Nat) (h : t' ≠ t) :
    (updInst w t f).insts t' = w.insts t' := by
  simp [updInst, h]

@[simp] theorem emit_dom (w : World) (e : Ev) : (emit w e).dom = w.dom := rfl

@[simp] theorem emit_reg (w : World) (e : Ev) : (emit w e).reg = w.reg := rfl

@[simp] theorem emit_insts (w : World) (e : Ev) : (emit w e).insts = w.insts := rfl

@[simp] theorem emit_evs (w : World) (e : Ev) : (emit w e).evs = w.evs ++ [e] := rfl

@[simp] theorem emitAll_dom (w : World) (es : List Ev) : (emitAll w es).dom = w.dom := rfl

@[simp] theorem emitAll_reg (w : World) (es : List Ev) : (emitAll w es).reg = w.reg := rfl

@[simp] theorem emitAll_insts (w : World) (es : List Ev) : (emitAll w es).insts = w.insts := rfl

@[simp] theorem emitAll_evs (w : World) (es : List Ev) : (emitAll w es).evs = w.evs ++ es := rfl

@[simp] theorem regDel_dom (w : World) (k : String × String) : (regDel w k).dom = w.dom := rfl

@[simp] theorem regDel_insts (w : World) (k : String × String) :
    (regDel w k).insts = w.insts := rfl

@[simp] theorem regDel_evs (w : World) (k : String × String) : (regDel w k).evs = w.evs := rfl

theorem regDel_reg (w : World) (k k' : String × String) :
    (regDel w k).reg k' = if k' = k then none else w.reg k' := rfl

/-! ### remListeners -/

theorem remListeners_spec (B : Beh) : ∀ (rs : List ListenerRec) (w : World),
    (remListeners B w rs).1.dom = w.dom ∧
    (remListeners B w rs).1.reg = w.reg ∧
    (remListeners B w rs).1.insts = w.insts ∧
    (∃ new, (remListeners B w rs).1.evs = w.evs ++ new ∧ new.Sublist (rs.map Ev.off)) ∧
    ((remListeners B w rs).2 = none → (remListeners B w rs).1.evs = w.evs ++ rs.map Ev.off) := by
  intro rs
  induction rs with
  | nil =>
    intro w
    refine ⟨rfl, rfl, rfl, ⟨[], by simp [remListeners], List.nil_sublist _⟩, ?_⟩
    intro _
    simp [remListeners]
  | cons r rs ih =>
    intro w
    by_cases hB : B.offThrows r = true
    · refine ⟨by simp [remListeners, hB], by simp [remListeners, hB], by simp [remListeners, hB],
        ⟨[], by simp [remListeners, hB], List.nil_sublist _⟩, ?_⟩
      intro hc
      exfalso
      simp [remListeners, hB] at hc
    · have heq : remListeners B w (r :: rs) = remListeners B (emit w (Ev.off r)) rs := by
        simp [remListeners, hB]
      rcases ih (emit w (Ev.off r)) with ⟨hd, hr, hi, ⟨new, hevs, hsub⟩, hnone⟩
      refine ⟨by rw [heq]; exact hd, by rw [heq]; exact hr, by rw [heq]; exact hi, ?_, ?_⟩
      · refine ⟨Ev.off r :: new, ?_, List.Sublist.cons₂ _ hsub⟩
        rw [heq, hevs]
        simp
      · intro hc
        rw [heq] at hc ⊢
        rw [hnone hc]
        simp

/-! ### cleanup -/

theorem cleanup_spec (B : Beh) (t : Nat) (w : World) (j : Inst)
    (hj : w.insts t = some j) :
    (∃ new, (cleanup B t w).1.evs = w.evs ++ new ∧ new.Sublist (fullCleanEvs j)) ∧
    (∀ t', t' ≠ t → (cleanup B t w).1.insts t' = w.insts t') ∧
    ((cleanup B t w).1.insts t = some j ∨ (cleanup B t w).1.insts t = some (cleanedInst j)) ∧
    (∀ k, k ≠ (j.cls, j.id) → (cleanup B t w).1.reg k = w.reg k) ∧
    ((cleanup B t w).1.reg (j.cls, j.id) = w.reg (j.cls, j.id) ∨
      ((cleanup B t w).1.reg (j.cls, j.id) = none ∧ w.reg (j.cls, j.id) = some t)) ∧
    ((cleanup B t w).2 = none →
      (cleanup B t w).1.evs = w.evs ++ fullCleanEvs j ∧
      (cleanup B t w).1.insts t = some (cleanedInst j) ∧
      markerAt (cleanup B t w).1.dom j.id = none ∧
      ((w.reg (j.cls, j.id) = some t ∨ w.reg (j.cls, j.id) = none) →
        (cleanup B t w).1.reg (j.cls, j.id) = none)) := by
  rcases hrem : remListeners B w j.listeners with ⟨w1, e1⟩
  rcases remListeners_spec B j.listeners w with ⟨hd0, hr0, hi0, ⟨new1, hevs0, hsub1⟩, hall0⟩
  rw [hrem] at hd0 hr0 hi0 hevs0 hall0
  have hd1 : w1.dom = w.dom := hd0
  have hr1 : w1.reg = w.reg := hr0
  have hi1 : w1.insts = w.insts := hi0
  have hevs1 : w1.evs = w.evs ++ new1 := hevs0
  have hall1 : e1 = none → w1.evs = w.evs ++ j.listeners.map Ev.off := hall0
  cases e1 with
  | some e =>
    have hres : cleanup B t w = (w1, some e) := by
      simp [cleanup, hj, hrem]
    rw [hres]
    refine ⟨⟨new1, hevs1, hsub1.trans (by simp [fullCleanEvs])⟩,
      fun t' _ => by rw [hi1], Or.inl (by rw [hi1, hj]),
      fun k _ => by rw [hr1], Or.inl (by rw [hr1]), ?_⟩
    intro hc
    cases hc
  | none =>
    have hevsL : w1.evs = w.evs ++ j.listeners.map Ev.off := hall1 rfl
    have hjw1 : w1.insts t = some j := by rw [hi1, hj]
    constructor
    · refine ⟨fullCleanEvs j, ?_, List.Sublist.refl _⟩
      simp only [cleanup, hj, hrem]
      by_cases hreg : w1.reg (j.cls, j.id) = some t <;>
        simp [hreg, hevsL, fullCleanEvs, List.append_assoc]
    constructor
    · intro t' ht'
      simp only [cleanup, hj, hrem]
      by_cases hreg : w1.reg (j.cls, j.id) = some t <;>
        simp [hreg, updInst_insts_ne _ _ _ _ ht', hi1]
    constructor
    · right
      simp only [cleanup, hj, hrem]
      by_cases hreg : w1.reg (j.cls, j.id) = some t <;>
        simp [hreg, updInst_insts_self, hjw1, cleanedInst]
    constructor
    · intro k hk
      simp only [cleanup, hj, hrem]
      split
      · simp only [regDel_reg, emitAll_reg, updInst_reg]
        rw [if_neg hk, hr1]
      · simp only [emitAll_reg, updInst_reg]
        rw [hr1]
    constructor
    · simp only [cleanup, hj, hrem]
      split
      case isTrue hreg =>
        right
        simp only [emitAll_reg, updInst_reg] at hreg
        refine ⟨?_, by rw [← hr1]; exact hreg⟩
        simp only [regDel_reg, emitAll_reg, updInst_reg]
        simp
      case isFalse hreg =>
        left
        simp only [emitAll_reg, updInst_reg]
        rw [hr1]
    · intro _
      refine ⟨?_, ?_, ?_, ?_⟩
      · simp only [cleanup, hj, hrem]
        by_cases hreg : w1.reg (j.cls, j.id) = some t <;>
          simp [hreg, hevsL, fullCleanEvs, List.append_assoc]
      · simp only [cleanup, hj, hrem]
        by_cases hreg : w1.reg (j.cls, j.id) = some t <;>
          simp [hreg, updInst_insts_self, hjw1, cleanedInst]
      · simp only [cleanup, hj, hrem]
        by_cases hreg : w1.reg (j.cls, j.id) = some t <;>
          simp [hreg, markerAt_removeMarkerById]
      · intro hcase
        simp only [cleanup, hj, hrem]
        split
        case isTrue hreg =>
          simp only [regDel_reg, emitAll_reg, updInst_reg]
          simp
        case isFalse hreg =>
          simp only [emitAll_reg, updInst_reg] at hreg
          rcases hcase with hcase | hcase
          · exact absurd (by rw [hr1]; exact hcase) hreg
          · simp only [emitAll_reg, updInst_reg]
            rw [hr1, hcase]

/-! ### DSpec combinators -/

theorem updInst_isSome (w : World) (t : Nat) (f : Inst → Inst) (t₀ : Nat) :
    ((updInst w t f).insts t₀).isSome = (w.insts t₀).isSome := by
  by_cases h : t₀ = t
  · subst h
    rw [updInst_insts_self]
    cases w.insts t₀ <;> simp
  · rw [updInst_insts_ne _ _ _ _ h]

theorem dspec_refl (P : Ev → Prop) (w : World) : DSpec P w w := by
  refine ⟨fun h => ⟨⟨[], by simp, by simp⟩, h⟩,
    fun t₀ i₀ h _ => ⟨h, fun _ _ => rfl⟩, fun _ h => h⟩

theorem dspec_trans {P : Ev → Prop} {w1 w2 w3 : World}
    (h12 : DSpec P w1 w2) (h23 : DSpec P w2 w3) : DSpec P w1 w3 := by
  obtain ⟨he12, hp12, hs12⟩ := h12
  obtain ⟨he23, hp23, hs23⟩ := h23
  refine ⟨?_, ?_, fun t₀ h => hs23 t₀ (hs12 t₀ h)⟩
  · intro hg
    obtain ⟨⟨n1, hev1, hP1⟩, hg2⟩ := he12 hg
    obtain ⟨⟨n2, hev2, hP2⟩, hg3⟩ := he23 hg2
    refine ⟨⟨n1 ++ n2, ?_, ?_⟩, hg3⟩
    · rw [hev2, hev1, List.append_assoc]
    · intro e he
      rcases List.mem_append.mp he with h | h
      · exact hP1 e h
      · exact hP2 e h
  · intro t₀ i₀ h hd
    obtain ⟨h2, hr2⟩ := hp12 t₀ i₀ h hd
    obtain ⟨h3, hr3⟩ := hp23 t₀ i₀ h2 hd
    refine ⟨h3, fun k hk => ?_⟩
    have hrw := hr2 k hk
    have hk2 : w2.reg k = some t₀ ∨ w2.reg k = none := by rw [hrw]; exact hk
    rw [hr3 k hk2, hrw]

theorem dspec_emit (P : Ev → Prop) (w : World) (e : Ev) (hP : P e) :
    DSpec P w (emit w e) := by
  refine ⟨fun hg => ⟨⟨[e], by simp, by simpa⟩, ?_⟩,
    fun t₀ i₀ h hd => ⟨h, fun _ _ => rfl⟩, fun _ h => h⟩
  intro t' j hj h1 h2
  exact hg t' j hj h1 h2

/-! ### Cascade -/

theorem cascadeRun_dspec (P : Ev → Prop)
    (recur : Nat → World → World × Option Err)
    (hrec : ∀ ct wc, DSpec P wc (recur ct wc).1)
    (hD : P Ev.logDanger) :
    ∀ (nodes : List String) (w : World), DSpec P w (cascadeRun recur nodes w) := by
  intro nodes
  induction nodes with
  | nil =>
    intro w
    have h : cascadeRun recur [] w = w := by simp [cascadeRun]
    rw [h]
    exact dspec_refl P w
  | cons eid rest ih =>
    intro w
    cases hfind : findById w.dom eid with
    | none =>
      have h : cascadeRun recur (eid :: rest) w = cascadeRun recur rest w := by
        simp [cascadeRun, hfind]
      rw [h]
      exact ih w
    | some d =>
      cases d with
      | node e m cs =>
        cases m with
        | none =>
          have h : cascadeRun recur (eid :: rest) w = cascadeRun recur rest w := by
            simp [cascadeRun, hfind]
          rw [h]
          exact ih w
        | some cname =>
          by_cases hskip : cname = "" ∨ eid = ""
          · have h : cascadeRun recur (eid :: rest) w = cascadeRun recur rest w := by
              simp [cascadeRun, hfind, hskip]
            rw [h]
            exact ih w
          · cases hreg : w.reg (cname, eid) with
            | none =>
              have h : cascadeRun recur (eid :: rest) w = cascadeRun recur rest w := by
                simp [cascadeRun, hfind, hskip, hreg]
              rw [h]
              exact ih w
            | some ct =>
              cases hinst : w.insts ct with
              | none =>
                have h : cascadeRun recur (eid :: rest) w = cascadeRun recur rest w := by
                  simp [cascadeRun, hfind, hskip, hreg, hinst]
                rw [h]
                exact ih w
              | some ci =>
                by_cases hflags : (ci.isDestructing || ci.isDestructed) = true
                · have h : cascadeRun recur (eid :: rest) w = cascadeRun recur rest w := by
                    simp [cascadeRun, hfind, hskip, hreg, hinst, hflags]
                  rw [h]
                  exact ih w
                · rcases hrecur : recur ct w with ⟨w2, e2⟩
                  cases e2 with
                  | none =>
                    have h : cascadeRun recur (eid :: rest) w = cascadeRun recur rest w2 := by
                      simp [cascadeRun, hfind, hskip, hreg, hinst, hflags, hrecur]
                    rw [h]
                    have hstep : DSpec P w w2 := by
                      have := hrec ct w
                      rw [hrecur] at this
                      exact this
                    exact dspec_trans hstep (ih w2)
                  | some err =>
                    have h : cascadeRun recur (eid :: rest) w =
                        cascadeRun recur rest (emit w2 Ev.logDanger) := by
                      simp [cascadeRun, hfind, hskip, hreg, hinst, hflags, hrecur]
                    rw [h]
                    have hstep : DSpec P w w2 := by
                      have := hrec ct w
                      rw [hrecur] at this
                      exact this
                    exact dspec_trans (dspec_trans hstep (dspec_emit P w2 Ev.logDanger hD))
                      (ih (emit w2 Ev.logDanger))

/-! ### Events of a full cleanup -/

theorem fullCleanEvs_P (P : Ev → Prop) (j : Inst) (hOK : instEvsOK P j) :
    ∀ e ∈ fullCleanEvs j, P e := by
  intro e he
  rcases hOK with ⟨hl, hd, ht, hi, hr, ha⟩
  simp only [fullCleanEvs, List.mem_append, List.mem_map] at he
  rcases he with ((((⟨r, hm, rfl⟩ | ⟨d, hm, rfl⟩) | ⟨n, hm, rfl⟩) | ⟨n, hm, rfl⟩) | ⟨n, hm, rfl⟩) | ⟨n, hm, rfl⟩
  · exact hl r hm
  · exact hd d hm
  · exact ht n hm
  · exact hi n hm
  · exact hr n hm
  · exact ha n hm

/-! ### The destruct state machine satisfies DSpec -/

theorem destructAux_dspec (P : Ev → Prop) (hD : P Ev.logDanger)
    (hB : ∀ n, P (Ev.destructBegin n)) :
    ∀ (fuel : Nat) (B : Beh) (t : Nat) (w : World),
      DSpec P w (destructAux fuel B t w).1 := by
  intro fuel
  induction fuel with
  | zero =>
    intro B t w
    have h : (destructAux 0 B t w).1 = w := by simp [destructAux]
    rw [h]
    exact dspec_refl P w
  | succ fuel ih =>
    intro B t w
    cases hi : w.insts t with
    | none =>
      have h : (destructAux (fuel + 1) B t w).1 = w := by simp [destructAux, hi]
      rw [h]
      exact dspec_refl P w
    | some i =>
      by_cases h1 : i.isDestructed = true
      · have h : (destructAux (fuel + 1) B t w).1 = w := by simp [destructAux, hi, h1]
        rw [h]
        exact dspec_refl P w
      · by_cases h2 : i.isDestructing = true
        · have h : (destructAux (fuel + 1) B t w).1 = w := by
            simp [destructAux, hi, h1, h2]
          rw [h]
          exact dspec_refl P w
        · have h1f : i.isDestructed = false := by simpa using h1
          have h2f : i.isDestructing = false := by simpa using h2
          set wA := emit (updInst w t (fun j => { j with isDestructing := true }))
            (Ev.destructBegin t) with hwA
          set wB := cascadeRun (fun ct wc => destructAux fuel B ct wc)
            (collectOwned wA.dom i.id) wA with hwB
          have hredf : (destructAux (fuel + 1) B t w).1 =
              updInst (cleanup B t wB).1 t
                (fun j => { j with isDestructing := false, isDestructed := true }) := by
            rw [hwB, hwA]
            simp [destructAux, hi, h1f, h2f]
          have hdsAB : DSpec P wA wB := by
            rw [hwB]
            exact cascadeRun_dspec P _ (fun ct wc => ih B ct wc) hD _ wA
          have hwAi : ∀ t', t' ≠ t → wA.insts t' = w.insts t' := by
            intro t' ht'
            rw [hwA]
            show (updInst w t _).insts t' = w.insts t'
            exact updInst_insts_ne _ _ _ _ ht'
          have hwAt : wA.insts t = some { i with isDestructing := true } := by
            rw [hwA]
            show (updInst w t _).insts t = _
            rw [updInst_insts_self, hi]
            rfl
          have hwBt : wB.insts t = some { i with isDestructing := true } :=
            (hdsAB.2.1 t _ hwAt rfl).1
          obtain ⟨⟨newC, hevC, hsubC⟩, hinstsC_ne, hinstsC_t, hregC_ne, hregC_key, hsuccC⟩ :=
            cleanup_spec B t wB _ hwBt
          refine ⟨?_, ?_, ?_⟩
          · -- events and HGood
            intro hg
            have hgA : HGood P wA := by
              intro t' j hj' hj1 hj2
              by_cases ht : t' = t
              · subst ht
                rw [hwAt] at hj'
                cases hj'
                simp at hj1
              · exact hg t' j (by rw [← hwAi t' ht]; exact hj') hj1 hj2
            obtain ⟨⟨nAB, hevAB, hPAB⟩, hgB⟩ := hdsAB.1 hgA
            have hevA : wA.evs = w.evs ++ [Ev.destructBegin t] := by
              rw [hwA]
              simp
            have hOKi : instEvsOK P i := hg t i hi h2f h1f
            have hPclean : ∀ e ∈ newC, P e := by
              intro e he
              exact fullCleanEvs_P P { i with isDestructing := true }
                ⟨hOKi.1, hOKi.2.1, hOKi.2.2.1, hOKi.2.2.2.1, hOKi.2.2.2.2.1,
                  hOKi.2.2.2.2.2⟩ e (hsubC.subset he)
            constructor
            · refine ⟨[Ev.destructBegin t] ++ nAB ++ newC, ?_, ?_⟩
              · rw [hredf]
                show (cleanup B t wB).1.evs = _
                rw [hevC, hevAB, hevA]
                simp [List.append_assoc]
              · intro e he
                rcases List.mem_append.mp he with he | he
                · rcases List.mem_append.mp he with he | he
                  · rcases List.mem_singleton.mp he with rfl
                    exact hB t
                  · exact hPAB e he
                · exact hPclean e he
            · intro t' j hj' hj1 hj2
              by_cases ht : t' = t
              · rw [ht] at hj'
                rw [hredf] at hj'
                rw [updInst_insts_self] at hj'
                rcases hc : (cleanup B t wB).1.insts t with _ | j'
                · rw [hc] at hj'
                  cases hj'
                · rw [hc] at hj'
                  simp at hj'
                  rw [← hj'] at hj2
                  simp at hj2
              · rw [hredf, updInst_insts_ne _ _ _ _ ht, hinstsC_ne t' ht] at hj'
                exact hgB t' j hj' hj1 hj2
          · -- destructing records and their registry entries are preserved
            intro t₀ i₀ h0 hd0
            have hne : t₀ ≠ t := by
              intro he
              subst he
              rw [h0] at hi
              cases hi
              rw [hd0] at h2f
              cases h2f
            have hA0 : wA.insts t₀ = some i₀ := by rw [hwAi t₀ hne]; exact h0
            obtain ⟨hB0, hBreg⟩ := hdsAB.2.1 t₀ i₀ hA0 hd0
            have hAreg : ∀ k, wA.reg k = w.reg k := fun k => by rw [hwA]; rfl
            constructor
            · rw [hredf, updInst_insts_ne _ _ _ _ hne, hinstsC_ne t₀ hne]
              exact hB0
            · intro k hk
              have hkA : wA.reg k = some t₀ ∨ wA.reg k = none := by rw [hAreg]; exact hk
              have hBk : wB.reg k = wA.reg k := hBreg k hkA
              have hkB : wB.reg k = some t₀ ∨ wB.reg k = none := by rw [hBk]; exact hkA
              have hCk : (cleanup B t wB).1.reg k = wB.reg k := by
                by_cases hkey : k = (i.cls, i.id)
                · rcases hregC_key with hc | ⟨hc1, hc2⟩
                  · rw [hkey]
                    exact hc
                  · exfalso
                    rw [hkey] at hkB
                    rw [hc2] at hkB
                    rcases hkB with hkB | hkB
                    · exact hne (Option.some.inj hkB).symm
                    · cases hkB
                · exact hregC_ne k hkey
              rw [hredf]
              show (cleanup B t wB).1.reg k = w.reg k
              rw [hCk, hBk, hAreg]
          · -- no instance disappears
            intro t₀ h0
            rw [hredf]
            by_cases ht : t₀ = t
            · subst ht
              rw [updInst_insts_self]
              rcases hinstsC_t with hc | hc <;> simp [hc]
            · rw [updInst_insts_ne _ _ _ _ ht, hinstsC_ne t₀ ht]
              have hsA : (wA.insts t₀).isSome := by
                rw [hwAi t₀ ht]
                exact h0
              exact hdsAB.2.2 t₀ hsA

/-! ### Reduction of the main destruct path and the finalizer guarantee -/

theorem destructAux_main_eq (B : Beh) (fuel : Nat) (t : Nat) (w : World) (i : Inst)
    (hi : w.insts t = some i) (h2 : i.isDestructing = false) (h1 : i.isDestructed = false) :
    destructAux (fuel + 1) B t w =
      (updInst (cleanup B t (cascadeRun (fun ct wc => destructAux fuel B ct wc)
          (collectOwned w.dom i.id)
          (emit (updInst w t (fun j => { j with isDestructing := true }))
            (Ev.destructBegin t)))).1 t
        (fun j => { j with isDestructing := false, isDestructed := true }),
       (cleanup B t (cascadeRun (fun ct wc => destructAux fuel B ct wc)
          (collectOwned w.dom i.id)
          (emit (updInst w t (fun j => { j with isDestructing := true }))
            (Ev.destructBegin t)))).2) := by
  simp [destructAux, hi, h2, h1]

theorem destruct_final_flags (B : Beh) (fuel : Nat) (t : Nat) (w : World) (i : Inst)
    (hi : w.insts t = some i) (h2 : i.isDestructing = false) (h1 : i.isDestructed = false) :
    ∃ j, (destructAux (fuel + 1) B t w).1.insts t = some j ∧
      j.isDestructing = false ∧ j.isDestructed = true := by
  have heq := destructAux_main_eq B fuel t w i hi h2 h1
  set wA := emit (updInst w t (fun j => { j with isDestructing := true }))
    (Ev.destructBegin t) with hwA
  set wB := cascadeRun (fun ct wc => destructAux fuel B ct wc)
    (collectOwned w.dom i.id) wA with hwB
  have hwAt : wA.insts t = some { i with isDestructing := true } := by
    rw [hwA]
    show (updInst w t _).insts t = _
    rw [updInst_insts_self, hi]
    rfl
  have hds : DSpec (fun _ => True) wA wB := by
    rw [hwB]
    exact cascadeRun_dspec (fun _ => True) _
      (fun ct wc => destructAux_dspec (fun _ => True) trivial (fun _ => trivial) fuel B ct wc)
      trivial _ wA
  have hwBt : wB.insts t = some { i with isDestructing := true } :=
    (hds.2.1 t _ hwAt rfl).1
  obtain ⟨_, _, hinstsC_t, _, _, _⟩ := cleanup_spec B t wB _ hwBt
  rcases hinstsC_t with hc | hc
  · refine ⟨{ i with isDestructing := false, isDestructed := true }, ?_, rfl, rfl⟩
    rw [heq]
    show (updInst (cleanup B t wB).1 t _).insts t = _
    rw [updInst_insts_self, hc]
    rfl
  · refine ⟨destructedInst i, ?_, rfl, rfl⟩
    rw [heq]
    show (updInst (cleanup B t wB).1 t _).insts t = _
    rw [updInst_insts_self, hc]
    rfl

/-! ### Counting helpers -/

theorem count_map_ne_zero {α : Type} (f : α → Ev) (e : Ev) (hf : ∀ y, f y ≠ e)
    (l : List α) : (l.map f).count e = 0 := by
  rw [List.count_eq_zero]
  intro h
  rcases List.mem_map.mp h with ⟨y, _, hy⟩
  exact hf y hy

theorem count_map_inj {α : Type} [DecidableEq α] (f : α → Ev)
    (hf : ∀ a b, f a = f b → a = b) (l : List α) (x : α) :
    (l.map f).count (f x) = l.count x := by
  induction l with
  | nil => rfl
  | cons a l ih =>
    by_cases h : a = x
    · subst h
      simp [List.count_cons, ih]
    · have hfa : ¬(f a = f x) := fun hc => h (hf _ _ hc)
      simp [List.count_cons, ih, h, hfa]

theorem count_eq_zero_of_allP (l : List Ev) (e : Ev) (h : ∀ x ∈ l, x ≠ e) :
    l.count e = 0 :=
  List.count_eq_zero.mpr (fun hc => (h e hc) rfl)

/-! ### exclEv facts -/

theorem exclEv_logDanger (i : Inst) : exclEv i Ev.logDanger := by
  simp [exclEv]

theorem exclEv_begin (i : Inst) (n : Nat) : exclEv i (Ev.destructBegin n) := by
  simp [exclEv]

theorem instEvsOK_excl (i j : Inst)
    (s1 : ∀ r ∈ i.listeners, r ∉ j.listeners)
    (s2 : ∀ n ∈ i.timeouts, n ∉ j.timeouts)
    (s3 : ∀ n ∈ i.intervals, n ∉ j.intervals)
    (s4 : ∀ n ∈ i.rafs, n ∉ j.rafs)
    (s5 : ∀ n ∈ i.aborts, n ∉ j.aborts) :
    instEvsOK (exclEv i) j := by
  refine ⟨?_, ?_, ?_, ?_, ?_, ?_⟩
  · intro r' hr'
    refine ⟨?_, by simp, by simp, by simp, by simp⟩
    intro r hr hc
    injection hc with h
    rw [h] at hr'
    exact s1 r hr hr'
  · intro d' _
    simp [exclEv]
  · intro n' hn'
    refine ⟨by simp, ?_, by simp, by simp, by simp⟩
    intro n hn hc
    injection hc with h
    rw [h] at hn'
    exact s2 n hn hn'
  · intro n' hn'
    refine ⟨by simp, by simp, ?_, by simp, by simp⟩
    intro n hn hc
    injection hc with h
    rw [h] at hn'
    exact s3 n hn hn'
  · intro n' hn'
    refine ⟨by simp, by simp, by simp, ?_, by simp⟩
    intro n hn hc
    injection hc with h
    rw [h] at hn'
    exact s4 n hn hn'
  · intro n' hn'
    refine ⟨by simp, by simp, by simp, by simp, ?_⟩
    intro n hn hc
    injection hc with h
    rw [h] at hn'
    exact s5 n hn hn'

/-- C1: for every instance constructed through the component base, after
`destruct()` returns (whether or not child destructors threw and were logged),
the instance record is terminal (`Destructed`, resource sets released), its
element no longer carries the `data-light-name` ownership marker, the registry
has no entry for its `(kind, id)` identity, and every timeout, interval,
animation frame, listener record and abortable tracked at call time was
canceled/removed exactly once during the call (count 1 in the effect trace — no
double-cancel, no leak).  Tracked-handle sets are duplicate-free (JS `Set`s /
fresh listener-record objects) and, as host handles are fresh, no other live
instance tracks the same handle. -/
theorem claim1_destruct_postconditions (B : Beh) (fuel : Nat) (w : World) (t : Nat)
    (i : Inst)
    (hi : w.insts t = some i)
    (hact1 : i.isDestructing = false) (hact2 : i.isDestructed = false)
    (hreg : w.reg (i.cls, i.id) = some t ∨ w.reg (i.cls, i.id) = none)
    (hndL : i.listeners.Nodup) (hndT : i.timeouts.Nodup) (hndI : i.intervals.Nodup)
    (hndR : i.rafs.Nodup) (hndA : i.aborts.Nodup)
    (hsep : ∀ t' j, t' ≠ t → w.insts t' = some j → j.isDestructing = false →
      j.isDestructed = false →
      (∀ r ∈ i.listeners, r ∉ j.listeners) ∧ (∀ n ∈ i.timeouts, n ∉ j.timeouts) ∧
      (∀ n ∈ i.intervals, n ∉ j.intervals) ∧ (∀ n ∈ i.rafs, n ∉ j.rafs) ∧
      (∀ n ∈ i.aborts, n ∉ j.aborts))
    (hret : (destructAux (fuel + 1) B t w).2 = none) :
    (destructAux (fuel + 1) B t w).1.insts t = some (destructedInst i) ∧
    markerAt (destructAux (fuel + 1) B t w).1.dom i.id = none ∧
    (destructAux (fuel + 1) B t w).1.reg (i.cls, i.id) = none ∧
    (∀ r ∈ i.listeners,
      (newEvs w (destructAux (fuel + 1) B t w).1).count (Ev.off r) = 1) ∧
    (∀ n ∈ i.timeouts,
      (newEvs w (destructAux (fuel + 1) B t w).1).count (Ev.clearT n) = 1) ∧
    (∀ n ∈ i.intervals,
      (newEvs w (destructAux (fuel + 1) B t w).1).count (Ev.clearI n) = 1) ∧
    (∀ n ∈ i.rafs,
      (newEvs w (destructAux (fuel + 1) B t w).1).count (Ev.cancelF n) = 1) ∧
    (∀ n ∈ i.aborts,
      (newEvs w (destructAux (fuel + 1) B t w).1).count (Ev.abort n) = 1) := by
  have heq := destructAux_main_eq B fuel t w i hi hact1 hact2
  set wA := emit (updInst w t (fun j => { j with isDestructing := true }))
    (Ev.destructBegin t) with hwA
  set wB := cascadeRun (fun ct wc => destructAux fuel B ct wc)
    (collectOwned w.dom i.id) wA with hwB
  have hds : DSpec (exclEv i) wA wB := by
    rw [hwB]
    exact cascadeRun_dspec (exclEv i) _
      (fun ct wc => destructAux_dspec (exclEv i) (exclEv_logDanger i) (exclEv_begin i)
        fuel B ct wc)
      (exclEv_logDanger i) _ wA
  have hwAt : wA.insts t = some { i with isDestructing := true } := by
    rw [hwA]
    show (updInst w t _).insts t = _
    rw [updInst_insts_self, hi]
    rfl
  have hwAi : ∀ t', t' ≠ t → wA.insts t' = w.insts t' := by
    intro t' ht'
    rw [hwA]
    show (updInst w t _).insts t' = _
    exact updInst_insts_ne _ _ _ _ ht'
  have hgA : HGood (exclEv i) wA := by
    intro t' j hj hj1 hj2
    by_cases ht : t' = t
    · rw [ht, hwAt] at hj
      cases hj
      simp at hj1
    · have hj' : w.insts t' = some j := by rw [← hwAi t' ht]; exact hj
      obtain ⟨s1, s2, s3, s4, s5⟩ := hsep t' j ht hj' hj1 hj2
      exact instEvsOK_excl i j s1 s2 s3 s4 s5
  have hwBt : wB.insts t = some { i with isDestructing := true } :=
    (hds.2.1 t _ hwAt rfl).1
  have hret' : (cleanup B t wB).2 = none := by
    rw [heq] at hret
    exact hret
  obtain ⟨_, _, _, _, _, hsucc⟩ := cleanup_spec B t wB _ hwBt
  obtain ⟨hevFull, hinstsClean, hmarker, hregRel⟩ := hsucc hret'
  obtain ⟨⟨nAB, hevAB, hQAB⟩, hgB⟩ := hds.1 hgA
  have hevA : wA.evs = w.evs ++ [Ev.destructBegin t] := by
    rw [hwA]
    simp
  have hevFinal : (destructAux (fuel + 1) B t w).1.evs =
      w.evs ++ ([Ev.destructBegin t] ++ nAB ++ fullCleanEvs i) := by
    rw [heq]
    show (cleanup B t wB).1.evs = _
    rw [hevFull, hevAB, hevA]
    simp [List.append_assoc]
    rfl
  have hnew : newEvs w (destructAux (fuel + 1) B t w).1 =
      [Ev.destructBegin t] ++ nAB ++ fullCleanEvs i := by
    rw [newEvs, hevFinal]
    exact List.drop_left _ _
  have hfull : fullCleanEvs i =
      i.listeners.map Ev.off ++ i.disposers.map Ev.disposerRun ++ i.timeouts.map Ev.clearT
        ++ i.intervals.map Ev.clearI ++ i.rafs.map Ev.cancelF ++ i.aborts.map Ev.abort := rfl
  refine ⟨?_, ?_, ?_, ?_, ?_, ?_, ?_, ?_⟩
  · rw [heq]
    show (updInst (cleanup B t wB).1 t _).insts t = _
    rw [updInst_insts_self, hinstsClean]
    rfl
  · rw [heq]
    show markerAt (cleanup B t wB).1.dom i.id = none
    exact hmarker
  · rw [heq]
    show (cleanup B t wB).1.reg (i.cls, i.id) = none
    have hregA : wA.reg (i.cls, i.id) = some t ∨ wA.reg (i.cls, i.id) = none := hreg
    have hpresReg := (hds.2.1 t _ hwAt rfl).2 (i.cls, i.id) hregA
    refine hregRel ?_
    show wB.reg (i.cls, i.id) = some t ∨ wB.reg (i.cls, i.id) = none
    rw [hpresReg]
    exact hregA
  · intro r hr
    rw [hnew, List.count_append, List.count_append, hfull]
    rw [List.count_append, List.count_append, List.count_append,
      List.count_append, List.count_append]
    rw [count_map_inj Ev.off (fun a b h => by injection h) i.listeners r]
    rw [List.count_eq_one_of_mem hndL hr]
    rw [count_eq_zero_of_allP nAB _ (fun e he => (hQAB e he).1 r hr)]
    rw [count_map_ne_zero Ev.disposerRun _ (fun y h => Ev.noConfusion h) i.disposers,
      count_map_ne_zero Ev.clearT _ (fun y h => Ev.noConfusion h) i.timeouts,
      count_map_ne_zero Ev.clearI _ (fun y h => Ev.noConfusion h) i.intervals,
      count_map_ne_zero Ev.cancelF _ (fun y h => Ev.noConfusion h) i.rafs,
      count_map_ne_zero Ev.abort _ (fun y h => Ev.noConfusion h) i.aborts]
    simp
  · intro n hn
    rw [hnew, List.count_append, List.count_append, hfull]
    rw [List.count_append, List.count_append, List.count_append,
      List.count_append, List.count_append]
    rw [count_map_inj Ev.clearT (fun a b h => by injection h) i.timeouts n]
    rw [List.count_eq_one_of_mem hndT hn]
    rw [count_eq_zero_of_allP nAB _ (fun e he => (hQAB e he).2.1 n hn)]
    rw [count_map_ne_zero Ev.off _ (fun y h => Ev.noConfusion h) i.listeners,
      count_map_ne_zero Ev.disposerRun _ (fun y h => Ev.noConfusion h) i.disposers,
      count_map_ne_zero Ev.clearI _ (fun y h => Ev.noConfusion h) i.intervals,
      count_map_ne_zero Ev.cancelF _ (fun y h => Ev.noConfusion h) i.rafs,
      count_map_ne_zero Ev.abort _ (fun y h => Ev.noConfusion h) i.aborts]
    simp
  · intro n hn
    rw [hnew, List.count_append, List.count_append, hfull]
    rw [List.count_append, List.count_append, List.count_append,
      List.count_append, List.count_append]
    rw [count_map_inj Ev.clearI (fun a b h => by injection h) i.intervals n]
    rw [List.count_eq_one_of_mem hndI hn]
    rw [count_eq_zero_of_allP nAB _ (fun e he => (hQAB e he).2.2.1 n hn)]
    rw [count_map_ne_zero Ev.off _ (fun y h => Ev.noConfusion h) i.listeners,
      count_map_ne_zero Ev.disposerRun _ (fun y h => Ev.noConfusion h) i.disposers,
      count_map_ne_zero Ev.clearT _ (fun y h => Ev.noConfusion h) i.timeouts,
      count_map_ne_zero Ev.cancelF _ (fun y h => Ev.noConfusion h) i.rafs,
      count_map_ne_zero Ev.abort _ (fun y h => Ev.noConfusion h) i.aborts]
    simp
  · intro n hn
    rw [hnew, List.count_append, List.count_append, hfull]
    rw [List.count_append, List.count_append, List.count_append,
      List.count_append, List.count_append]
    rw [count_map_inj Ev.cancelF (fun a b h => by injection h) i.rafs n]
    rw [List.count_eq_one_of_mem hndR hn]
    rw [count_eq_zero_of_allP nAB _ (fun e he => (hQAB e he).2.2.2.1 n hn)]
    rw [count_map_ne_zero Ev.off _ (fun y h => Ev.noConfusion h) i.listeners,
      count_map_ne_zero Ev.disposerRun _ (fun y h => Ev.noConfusion h) i.disposers,
      count_map_ne_zero Ev.clearT _ (fun y h => Ev.noConfusion h) i.timeouts,
      count_map_ne_zero Ev.clearI _ (fun y h => Ev.noConfusion h) i.intervals,
      count_map_ne_zero Ev.abort _ (fun y h => Ev.noConfusion h) i.aborts]
    simp
  · intro n hn
    rw [hnew, List.count_append, List.count_append, hfull]
    rw [List.count_append, List.count_append, List.count_append,
      List.count_append, List.count_append]
    rw [count_map_inj Ev.abort (fun a b h => by injection h) i.aborts n]
    rw [List.count_eq_one_of_mem hndA hn]
    rw [count_eq_zero_of_allP nAB _ (fun e he => (hQAB e he).2.2.2.2 n hn)]
    rw [count_map_ne_zero Ev.off _ (fun y h => Ev.noConfusion h) i.listeners,
      count_map_ne_zero Ev.disposerRun _ (fun y h => Ev.noConfusion h) i.disposers,
      count_map_ne_zero Ev.clearT _ (fun y h => Ev.noConfusion h) i.timeouts,
      count_map_ne_zero Ev.clearI _ (fun y h => Ev.noConfusion h) i.intervals,
      count_map_ne_zero Ev.cancelF _ (fun y h => Ev.noConfusion h) i.rafs]
    simp

/-- Witness: C1 applied to the concrete world `W1` (parent `instP` with one
resource of each kind and one owned child), all hypotheses discharged. -/
theorem claim1_witness :
    ((destructAux 2 B0 0 W1).2 = none ∧ W1.insts 0 = some instP) ∧
    ((destructAux 2 B0 0 W1).1.insts 0 = some (destructedInst instP) ∧
     markerAt (destructAux 2 B0 0 W1).1.dom "p" = none ∧
     (destructAux 2 B0 0 W1).1.reg ("P", "p") = none ∧
     (newEvs W1 (destructAux 2 B0 0 W1).1).count (Ev.clearT 10) = 1) :=
  ⟨⟨by decide, by decide⟩, by
    have hsep : ∀ t' j, t' ≠ 0 → W1.insts t' = some j → j.isDestructing = false →
        j.isDestructed = false →
        (∀ r ∈ instP.listeners, r ∉ j.listeners) ∧
        (∀ n ∈ instP.timeouts, n ∉ j.timeouts) ∧
        (∀ n ∈ instP.intervals, n ∉ j.intervals) ∧
        (∀ n ∈ instP.rafs, n ∉ j.rafs) ∧
        (∀ n ∈ instP.aborts, n ∉ j.aborts) := by
      intro t' j ht' hj _ _
      by_cases h1 : t' = 1
      · subst h1
        have hj' : j = instC := by
          have : W1.insts 1 = some instC := by decide
          rw [this] at hj
          exact (Option.some.inj hj).symm
        subst hj'
        refine ⟨?_, ?_, ?_, ?_, ?_⟩ <;> decide
      · have hnone : W1.insts t' = none := by
          simp [W1, ht', h1]
        rw [hnone] at hj
        cases hj
    have h := claim1_destruct_postconditions B0 1 W1 0 instP (by decide) (by decide)
      (by decide) (Or.inl (by decide)) (by decide) (by decide) (by decide) (by decide)
      (by decide) hsep (by decide)
    exact ⟨h.1, h.2.1, h.2.2.1, h.2.2.2.2.1 10 (by decide)⟩⟩

/-- C2: the destruct cascade visits owned descendants in DOM-depth-descending
order (`sortedOwnedPairs` is always sorted deepest first), and in the concrete
parent/descendant world `W2` — parent `p` with marked descendants `a` at depth 1
and `b` at depth 2 — the deeper descendant `b` (tag 2) begins destructing before
the shallower `a` (tag 1), and after the parent's `destruct()` both are
`Destructed` and absent from the registry. -/
theorem claim2_cascade_deepest_first :
    (∀ (d : DomTree) (x : String),
      List.Sorted (fun a b : String × Nat => b.2 ≤ a.2) (sortedOwnedPairs d x)) ∧
    ((destructAux 3 B0 0 W2).2 = none ∧
     (newEvs W2 (destructAux 3 B0 0 W2).1).filter isBeginEv =
       [Ev.destructBegin 0, Ev.destructBegin 2, Ev.destructBegin 1] ∧
     (destructAux 3 B0 0 W2).1.insts 1 = some (destructedInst (freshInst "CA" "a")) ∧
     (destructAux 3 B0 0 W2).1.insts 2 = some (destructedInst (freshInst "CB" "b")) ∧
     (destructAux 3 B0 0 W2).1.reg ("CA", "a") = none ∧
     (destructAux 3 B0 0 W2).1.reg ("CB", "b") = none) := by
  constructor
  · intro d x
    unfold sortedOwnedPairs
    split
    · exact List.sorted_nil
    · haveI : IsTotal (String × Nat) (fun a b => b.2 ≤ a.2) :=
        ⟨fun a b => le_total b.2 a.2⟩
      haveI : IsTrans (String × Nat) (fun a b => b.2 ≤ a.2) :=
        ⟨fun a b c h1 h2 => le_trans h2 h1⟩
      exact List.sorted_insertionSort _ _
  · exact ⟨by decide, by decide, by decide, by decide, by decide, by decide⟩

/-- C3 counterexample: on the already-`Destructed` instance of `W3`, the
resource-acquisition methods complete normally and mutate the tracked sets —
the embedding of `addEvent`/`setT`/`addDisposer` (faithful to the source, which
contains no lifecycle check in any acquisition method) has no error channel at
all, refuting the claim that such calls fail with a reported (thrown) error. -/
theorem claim3_counterexample :
    W3.insts 0 = some instDead ∧ instDead.isDestructed = true ∧
    (setT W3 0 42).insts 0 = some { instDead with timeouts := [42] } ∧
    (addEvent W3 0 (some "x") "click" none 9).1.insts 0 =
      some { instDead with
        listeners := [{ target := "x", etype := "click", selector := none, handler := 9 }] } ∧
    (addEvent W3 0 (some "x") "click" none 9).2 = true ∧
    (addDisposer W3 0 3).insts 0 = some { instDead with disposers := [3] } :=
  ⟨by decide, by decide, by decide, by decide, by decide, by decide⟩

/-- C3 amended: the resource-acquisition methods (`addEvent`, `addDisposer`,
`observeResize`/`observeIntersection`/`observeMutation`, `setT`, `setI`,
`requestFrame`, `addAbortController`) perform no lifecycle-state check: each
succeeds silently and records the resource even on an instance whose state is
`Destructing` or `Destructed`; only `destruct()` itself reports an error on a
non-`Active` instance. -/
theorem claim3_amended (w : World) (t : Nat) (i : Inst) (n d h : Nat)
    (ty tgt : String) (sel : Option String)
    (hi : w.insts t = some i) (hdead : i.isDestructed = true) :
    (setT w t n).insts t = some { i with timeouts := addToSet i.timeouts n } ∧
    (setI w t n).insts t = some { i with intervals := addToSet i.intervals n } ∧
    (requestFrame w t n).insts t = some { i with rafs := addToSet i.rafs n } ∧
    (addAbortController w t n).insts t = some { i with aborts := addToSet i.aborts n } ∧
    (addDisposer w t d).insts t = some { i with disposers := i.disposers ++ [d] } ∧
    (observeResize w t d).insts t = some { i with disposers := i.disposers ++ [d] } ∧
    (observeIntersection w t d).insts t = some { i with disposers := i.disposers ++ [d] } ∧
    (observeMutation w t d).insts t = some { i with disposers := i.disposers ++ [d] } ∧
    (addEvent w t (some tgt) ty sel h).1.insts t =
      some { i with listeners := i.listeners ++ [⟨tgt, ty, sel, h⟩] } ∧
    (addEvent w t (some tgt) ty sel h).2 = true := by
  refine ⟨?_, ?_, ?_, ?_, ?_, ?_, ?_, ?_, ?_, rfl⟩ <;>
    simp [setT, setI, requestFrame, addAbortController, addDisposer, observeResize,
      observeIntersection, observeMutation, addEvent, updInst_insts_self, hi]

/-- Witness: C3 amended applied to the destructed instance of `W3`. -/
theorem claim3_witness :
    instDead.isDestructed = true ∧
    (setI W3 0 7).insts 0 = some { instDead with intervals := [7] } :=
  ⟨by decide, by
    have h := claim3_amended W3 0 instDead 7 3 9 "click" "x" none (by decide) (by decide)
    exact h.2.1⟩

/-- C4: while a first instance holds the registry slot of `(kind, id)`, a second
construction with the same pair fails with the duplicate-identity error
(`E_INSTANCE_EXISTS`, the code the spec names `DuplicateIdentity`), the world —
hence the first instance's `Active` record and its registry entry — is entirely
unchanged; and in general any failed construction leaves the world untouched
(all validation precedes any mutation), while a successful one ends with the
marker attached, the fresh record allocated and, last, the registry claimed. -/
theorem claim4_duplicate_identity (w : World) (cls id : String) (tag1 tag2 : Nat)
    (i1 : Inst)
    (hvalid : id ≠ "" ∧ id.data.contains '#' = false)
    (hreg : w.reg (cls, id) = some tag1)
    (hi1 : w.insts tag1 = some i1)
    (hact : i1.isDestructing = false ∧ i1.isDestructed = false) :
    construct w cls id tag2 = (w, some (Err.thrown "E_INSTANCE_EXISTS")) ∧
    (construct w cls id tag2).1.reg (cls, id) = some tag1 ∧
    (construct w cls id tag2).1.insts tag1 = some i1 ∧
    (∀ (w' : World) (c' i' : String) (tg : Nat),
      (construct w' c' i' tg).2.isSome → (construct w' c' i' tg).1 = w') ∧
    (∀ (w' : World) (c' i' : String) (tg : Nat),
      (construct w' c' i' tg).2 = none →
        (construct w' c' i' tg).1.reg (c', i') = some tg ∧
        (construct w' c' i' tg).1.insts tg = some (freshInst c' i') ∧
        markerAt (construct w' c' i' tg).1.dom i' = some c') := by
  have hv1 : id ≠ "" := hvalid.1
  have hv2 : '#' ∉ id.data := by simpa using hvalid.2
  have hmain : construct w cls id tag2 = (w, some (Err.thrown "E_INSTANCE_EXISTS")) := by
    simp [construct, hv1, hv2, hreg]
  refine ⟨hmain, by rw [hmain]; exact hreg, by rw [hmain]; exact hi1, ?_, ?_⟩
  · intro w' c' i' tg h
    by_cases h1 : i' ≠ "" ∧ '#' ∉ i'.data
    · by_cases h2 : (w'.reg (c', i')).isSome
      · simp [construct, h1, h2]
      · cases hf : findById w'.dom i' with
        | none => simp [construct, h1, h2, hf]
        | some u =>
          cases u with
          | node e m cs =>
            cases m with
            | none =>
              exfalso
              have hn : (construct w' c' i' tg).2 = none := by
                simp [construct, h1, h2, hf]
              rw [hn] at h
              cases h
            | some o =>
              by_cases hcf : o ≠ "" ∧ o ≠ c'
              · simp [construct, h1, h2, hf, hcf]
              · exfalso
                have hn : (construct w' c' i' tg).2 = none := by
                  simp [construct, h1, h2, hf, hcf]
                rw [hn] at h
                cases h
    · simp [construct, h1]
  · intro w' c' i' tg h
    by_cases h1 : i' ≠ "" ∧ '#' ∉ i'.data
    case neg =>
      exfalso
      simp [construct, h1] at h
    by_cases h2 : (w'.reg (c', i')).isSome
    case pos =>
      exfalso
      simp [construct, h1, h2] at h
    cases hf : findById w'.dom i' with
    | none =>
      exfalso
      simp [construct, h1, h2, hf] at h
    | some u =>
      cases u with
      | node e m cs =>
        cases m with
        | none =>
          refine ⟨?_, ?_, ?_⟩
          · simp [construct, h1, h2, hf, regPut]
          · simp [construct, h1, h2, hf, regPut]
          · have hdom : (construct w' c' i' tg).1.dom = setMarkerById w'.dom i' c' := by
              simp [construct, h1, h2, hf, regPut]
            rw [hdom]
            exact markerAt_setMarkerById _ _ _ _ hf
        | some o =>
          by_cases hcf : o ≠ "" ∧ o ≠ c'
          case pos =>
            exfalso
            simp [construct, h1, h2, hf, hcf] at h
          refine ⟨?_, ?_, ?_⟩
          · simp [construct, h1, h2, hf, hcf, regPut]
          · simp [construct, h1, h2, hf, hcf, regPut]
          · have hdom : (construct w' c' i' tg).1.dom = setMarkerById w'.dom i' c' := by
              simp [construct, h1, h2, hf, hcf, regPut]
            rw [hdom]
            exact markerAt_setMarkerById _ _ _ _ hf

/-- Witness: C4 applied to the concrete world `W4` holding a live `("A","x")`
instance; a second construction fails and changes nothing. -/
theorem claim4_witness :
    construct W4 "A" "x" 1 = (W4, some (Err.thrown "E_INSTANCE_EXISTS")) ∧
    (construct W4 "A" "x" 1).1.reg ("A", "x") = some 0 := by
  have h := claim4_duplicate_identity W4 "A" "x" 0 1 (freshInst "A" "x")
    ⟨by decide, by decide⟩ (by decide) (by decide) ⟨rfl, rfl⟩
  exact ⟨h.1, h.2.1⟩

/-- C5: after a completed `destruct()` of an `Active` instance, a second
`destruct()` fails with `ALREADY_DESTRUCTED` and returns the world exactly
unchanged (no registry, DOM or resource-set mutation — the guard throws before
any side effect); a re-entrant `destruct()` on a `Destructing` instance fails
with `DESTRUCT_IN_PROGRESS`, also leaving the world untouched.  Both failures
surface as thrown errors, never as silent returns. -/
theorem claim5_destruct_twice (B B2 : Beh) (fuel fuel2 : Nat) (w : World) (t : Nat)
    (i : Inst)
    (hi : w.insts t = some i) (hact1 : i.isDestructing = false)
    (hact2 : i.isDestructed = false) :
    destructAux (fuel2 + 1) B2 t (destructAux (fuel + 1) B t w).1 =
      ((destructAux (fuel + 1) B t w).1,
        some (Err.thrown "LightBase.ALREADY_DESTRUCTED")) ∧
    (∀ (w' : World) (j : Inst), w'.insts t = some j → j.isDestructing = true →
      j.isDestructed = false →
      destructAux (fuel2 + 1) B2 t w' =
        (w', some (Err.thrown "LightBase.DESTRUCT_IN_PROGRESS"))) := by
  constructor
  · obtain ⟨j, hj, hjing, hjed⟩ := destruct_final_flags B fuel t w i hi hact1 hact2
    generalize hg : (destructAux (fuel + 1) B t w).1 = w1 at hj ⊢
    simp [destructAux, hj, hjed]
  · intro w' j hj hjing hjed
    simp [destructAux, hj, hjed, hjing]

/-- Witness: C5 on the single-instance world `W5` — the first call succeeds, the
second fails with `ALREADY_DESTRUCTED` and returns the same world. -/
theorem claim5_witness :
    (destructAux 2 B0 0 W5).2 = none ∧
    destructAux 2 B0 0 (destructAux 2 B0 0 W5).1 =
      ((destructAux 2 B0 0 W5).1, some (Err.thrown "LightBase.ALREADY_DESTRUCTED")) :=
  ⟨by decide,
    (claim5_destruct_twice B0 B0 1 1 W5 0 (freshInst "A" "x") (by decide) rfl rfl).1⟩

/-! ### Interpolation lemmas -/

theorem pathChar_not_ws (c : Char) (h : isPathChar c = true) : isJsWs c = false := by
  by_contra hw
  have hw' : isJsWs c = true := by simpa using hw
  simp only [isJsWs, decide_eq_true_eq] at hw'
  rcases hw' with rfl | rfl | rfl | rfl <;> exact absurd h (by decide)

theorem dropWs_not_ws (c : Char) (l : List Char) (h : isJsWs c = false) :
    dropWs (c :: l) = c :: l := by
  simp [dropWs, h]

theorem dropWs_length_le (l : List Char) : (dropWs l).length ≤ l.length := by
  induction l with
  | nil => simp [dropWs]
  | cons c cs ih =>
    by_cases h : isJsWs c = true
    · simp only [dropWs, h, if_true]
      exact ih.trans (by simp)
    · simp [dropWs, h]

theorem grabPath_snd_length_le (l : List Char) : (grabPath l).2.length ≤ l.length := by
  induction l with
  | nil => simp [grabPath]
  | cons c cs ih =>
    by_cases h : isPathChar c = true
    · simp only [grabPath, h, if_true]
      exact ih.trans (by simp)
    · simp [grabPath, h]

theorem grabPath_append (l r : List Char) (hl : ∀ c ∈ l, isPathChar c = true)
    (hr : ∀ c, r.head? = some c → isPathChar c = false) :
    grabPath (l ++ r) = (l, r) := by
  induction l with
  | nil =>
    cases r with
    | nil => rfl
    | cons c cs =>
      have hc := hr c rfl
      simp [grabPath, hc]
  | cons c cs ih =>
    have hc := hl c (by simp)
    have hih := ih (fun x hx => hl x (by simp [hx]))
    simp [grabPath, hc, hih]

theorem tryPh_eq (p : String) (post : List Char)
    (hp : p ≠ "") (hpc : ∀ c ∈ p.data, isPathChar c = true) :
    tryPh (p.data ++ '}' :: '}' :: post) = some (p, post) := by
  have hne : p.data ≠ [] := by
    intro h
    exact hp (String.ext h)
  have h2 : grabPath (p.data ++ '}' :: '}' :: post) = (p.data, '}' :: '}' :: post) := by
    refine grabPath_append _ _ hpc ?_
    intro x hx
    simp only [List.head?] at hx
    rw [← Option.some.inj hx]
    decide
  have h3 : dropWs ('}' :: '}' :: post) = '}' :: '}' :: post :=
    dropWs_not_ws '}' _ (by decide)
  rcases hd : p.data with _ | ⟨c, cs⟩
  · exact absurd hd hne
  · have hc : isPathChar c = true := hpc c (by rw [hd]; simp)
    have h1 : dropWs ((c :: cs) ++ '}' :: '}' :: post) = (c :: cs) ++ '}' :: '}' :: post :=
      dropWs_not_ws c _ (pathChar_not_ws c hc)
    have hmk : String.mk (c :: cs) = p := by
      rw [← hd]
    rw [hd] at h2
    rw [tryPh, h1, h2]
    simp only [h3]
    rw [hmk]

theorem tryPh_rest_le (l : List Char) (p : String) (rest : List Char)
    (h : tryPh l = some (p, rest)) : rest.length + 2 ≤ l.length := by
  rw [tryPh] at h
  rcases hg : (grabPath (dropWs l)).1 with _ | ⟨c, cs⟩
  · rw [hg] at h
    cases h
  · rw [hg] at h
    rcases hdd : dropWs (grabPath (dropWs l)).2 with _ | ⟨c1, t1⟩
    · rw [hdd] at h
      cases h
    · rw [hdd] at h
      rcases t1 with _ | ⟨c2, t2⟩
      · by_cases hc1 : c1 = '}'
        · subst hc1
          cases h
        · simp [hc1] at h
      · by_cases hc1 : c1 = '}'
        · subst hc1
          by_cases hc2 : c2 = '}'
          · subst hc2
            have hrest : t2 = rest := by
              simp at h
              exact h.2
            have hlen : rest.length + 2 = (dropWs (grabPath (dropWs l)).2).length := by
              rw [hdd, ← hrest]
              simp
            have l1 := dropWs_length_le (grabPath (dropWs l)).2
            have l2 := grabPath_snd_length_le (dropWs l)
            have l3 := dropWs_length_le l
            omega
          · simp [hc2] at h
        · simp [hc1] at h

theorem interpAux_fuel (data : JVal) :
    ∀ (f1 : Nat) (l : List Char) (f2 : Nat), l.length ≤ f1 → l.length ≤ f2 →
      interpolateAuxF data f1 l = interpolateAuxF data f2 l := by
  intro f1
  induction f1 with
  | zero =>
    intro l f2 h1 _
    have hl : l = [] := List.length_eq_zero.mp (Nat.le_zero.mp h1)
    subst hl
    cases f2 <;> rfl
  | succ f1 ih =>
    intro l f2 h1 h2
    cases l with
    | nil => cases f2 <;> rfl
    | cons c cs =>
      cases f2 with
      | zero => simp at h2
      | succ f2 =>
        have hcs1 : cs.length ≤ f1 := by simp at h1; omega
        have hcs2 : cs.length ≤ f2 := by simp at h2; omega
        by_cases hc : c = '{'
        · subst hc
          cases cs with
          | nil =>
            simp only [interpolateAuxF, if_true]
            rw [ih [] f2 (by simp) (by simp)]
          | cons c2 cs2 =>
            by_cases hc2 : c2 = '{'
            · subst hc2
              rcases hph : tryPh cs2 with _ | ⟨p, rest⟩
              · simp only [interpolateAuxF, hph, if_pos]
                rw [ih ('{' :: cs2) f2 (by simp at h1 ⊢; omega) (by simp at h2 ⊢; omega)]
              · have hrl := tryPh_rest_le cs2 p rest hph
                have hr1 : rest.length ≤ f1 := by simp at h1; omega
                have hr2 : rest.length ≤ f2 := by simp at h2; omega
                simp only [interpolateAuxF, hph, if_pos]
                rw [ih rest f2 hr1 hr2]
            · simp only [interpolateAuxF, hc2, if_false, if_true]
              rw [ih (c2 :: cs2) f2 hcs1 hcs2]
        · simp only [interpolateAuxF, hc, if_false]
          rw [ih cs f2 hcs1 hcs2]

theorem interpAux_cons_ne (data : JVal) (f : Nat) (c : Char) (cs : List Char)
    (h : c ≠ '{') :
    interpolateAuxF data (f + 1) (c :: cs) = c :: interpolateAuxF data f cs := by
  simp [interpolateAuxF, h]

theorem interpAux_len_front (data : JVal) :
    ∀ (pre rest : List Char), (∀ c ∈ pre, c ≠ '{') →
      interpolateAuxF data (pre ++ rest).length (pre ++ rest) =
        pre ++ interpolateAuxF data rest.length rest := by
  intro pre
  induction pre with
  | nil => intro rest _; rfl
  | cons c cs ih =>
    intro rest h
    have hc := h c (by simp)
    have hstep : interpolateAuxF data ((c :: cs) ++ rest).length ((c :: cs) ++ rest)
        = c :: interpolateAuxF data (cs ++ rest).length (cs ++ rest) := by
      show interpolateAuxF data ((cs ++ rest).length + 1) (c :: (cs ++ rest)) = _
      exact interpAux_cons_ne data _ c _ hc
    rw [hstep, ih rest (fun x hx => h x (by simp [hx]))]
    rfl

theorem interpAux_len_placeholder (data : JVal) (p : String) (post : List Char)
    (hp : p ≠ "") (hpc : ∀ c ∈ p.data, isPathChar c = true)
    (hnull : isNullish (getByPath data (pathToTokens p)) = true) :
    interpolateAuxF data ('{' :: '{' :: (p.data ++ '}' :: '}' :: post)).length
        ('{' :: '{' :: (p.data ++ '}' :: '}' :: post)) =
      interpolateAuxF data post.length post := by
  have hph := tryPh_eq p post hp hpc
  have hsub : substValue data p = "" := by
    simp [substValue, hnull]
  show interpolateAuxF data ((p.data ++ '}' :: '}' :: post).length + 1 + 1)
      ('{' :: '{' :: (p.data ++ '}' :: '}' :: post)) = _
  simp only [interpolateAuxF, hph, if_pos, hsub]
  show interpolateAuxF data ((p.data ++ '}' :: '}' :: post).length + 1) post = _
  refine interpAux_fuel data _ post _ ?_ le_rfl
  simp
  omega

/-- C9: assertion-message interpolation.  The global `E_NO_ELEMENT` template
combined with context `\x7bid: "x"\x7d` produces exactly
`No element found with id "x"`; for every context and template, a placeholder
whose dotted/bracket path is missing from the context (nullish lookup)
interpolates to the empty string (stated for an arbitrary brace-free prefix and
arbitrary suffix around the placeholder); and the error thrown by `L.assert`
carries the `code` and the original context object in `info`. -/
theorem claim9_interpolation :
    (interpolate "No element found with id \"\x7b\x7bid\x7d\x7d\""
        (JVal.obj [("id", JVal.str "x")]) = "No element found with id \"x\"") ∧
    (∀ (data : JVal) (pre p post : String),
      p ≠ "" → (∀ c ∈ p.data, isPathChar c = true) → (∀ c ∈ pre.data, c ≠ '{') →
      isNullish (getByPath data (pathToTokens p)) = true →
      interpolate (pre ++ "\x7b\x7b" ++ p ++ "\x7d\x7d" ++ post) data =
        pre ++ interpolate post data) ∧
    (∀ (code : String) (fields : List (String × JVal))
        (errNs : List (String × List (String × String)))
        (errGlobal : List (String × String)),
      ∃ e, lAssert false code (JVal.obj fields) errNs errGlobal = some e ∧
        e.code = (if code = "" then "E_ASSERT_FAILED" else code) ∧
        e.info = JVal.obj fields) := by
  refine ⟨by decide, ?_, ?_⟩
  · intro data pre p post hp hpc hpre hnull
    have hdata : (pre ++ "\x7b\x7b" ++ p ++ "\x7d\x7d" ++ post).data
        = pre.data ++ ('{' :: '{' :: (p.data ++ '}' :: '}' :: post.data)) := by
      simp
    simp only [interpolate]
    rw [hdata]
    rw [interpAux_len_front data pre.data _ hpre]
    rw [interpAux_len_placeholder data p post.data hp hpc hnull]
    cases pre with
    | mk d => rfl
  · intro code fields errNs errGlobal
    exact ⟨_, rfl, rfl, rfl⟩

/-- Witness: C9's universal parts applied at a concrete missing path and a
concrete assert call. -/
theorem claim9_witness :
    interpolate "a\x7b\x7bmissing\x7d\x7db" (JVal.obj []) =
      "a" ++ interpolate "b" (JVal.obj []) ∧
    (∃ e, lAssert false "E_NO_ELEMENT" (JVal.obj [("id", JVal.str "x")]) []
        lightGlobalErrors = some e ∧
      e.code = (if "E_NO_ELEMENT" = "" then "E_ASSERT_FAILED" else "E_NO_ELEMENT") ∧
      e.info = JVal.obj [("id", JVal.str "x")]) := by
  constructor
  · exact claim9_interpolation.2.1 (JVal.obj []) "a" "missing" "b" (by decide)
      (by decide) (by decide) (by decide)
  · exact claim9_interpolation.2.2 "E_NO_ELEMENT" [("id", JVal.str "x")] []
      lightGlobalErrors

/-- C6 counterexample: a disposer that throws during `destruct()` is swallowed
silently, not logged at danger level.  With the behaviour oracle declaring that
disposer 7 throws, the destruct of the instance holding it still succeeds, the
disposer is invoked, and no danger-level log event is emitted — contradicting
the claim that a throwing disposer is "caught, logged at danger level". -/
theorem claim6_counterexample :
    B6a.disposerThrows 7 = true ∧ 7 ∈ inst6a.disposers ∧
    (destructAux 2 B6a 0 W6a).2 = none ∧
    Ev.disposerRun 7 ∈ newEvs W6a (destructAux 2 B6a 0 W6a).1 ∧
    (newEvs W6a (destructAux 2 B6a 0 W6a).1).count Ev.logDanger = 0 := by decide

/-- C6 (amended): a child destructor throwing is caught and logged at danger
level and prevents neither the parent's remaining cleanup nor the finalizer;
a disposer throwing is caught but swallowed silently (no danger log), with all
remaining cleanup steps still running; and in every case the instance reaches
`Destructed` with `isDestructing` cleared, via the guaranteed-run finalizer. -/
theorem claim6_amended :
    (∀ (B : Beh) (fuel t : Nat) (w : World) (i : Inst),
      w.insts t = some i → i.isDestructing = false → i.isDestructed = false →
      ∃ j, (destructAux (fuel + 1) B t w).1.insts t = some j ∧
        j.isDestructing = false ∧ j.isDestructed = true) ∧
    (B6b.offThrows lrec1 = true ∧ lrec1 ∈ inst6c.listeners ∧
      (destructAux 2 B6b 0 W6b).2 = none ∧
      (newEvs W6b (destructAux 2 B6b 0 W6b).1).count Ev.logDanger = 1 ∧
      (destructAux 2 B6b 0 W6b).1.insts 1 =
        some { inst6c with isDestructing := false, isDestructed := true } ∧
      (destructAux 2 B6b 0 W6b).1.insts 0 =
        some { freshInst "P" "p" with isDestructed := true } ∧
      (destructAux 2 B6b 0 W6b).1.reg ("P", "p") = none ∧
      markerAt (destructAux 2 B6b 0 W6b).1.dom "p" = none) ∧
    ((destructAux 2 B6a 0 W6a).2 = none ∧
      Ev.disposerRun 7 ∈ newEvs W6a (destructAux 2 B6a 0 W6a).1 ∧
      (newEvs W6a (destructAux 2 B6a 0 W6a).1).count Ev.logDanger = 0 ∧
      (destructAux 2 B6a 0 W6a).1.insts 0 =
        some { cleanedInst inst6a with isDestructed := true } ∧
      (destructAux 2 B6a 0 W6a).1.reg ("A", "x") = none) := by
  refine ⟨?_, by decide, by decide⟩
  intro B fuel t w i hi h2 h1
  exact destruct_final_flags B fuel t w i hi h2 h1

/-- Witness: the universal finalizer part of the amended C6, at a concrete
Active single-instance world. -/
theorem claim6_witness :
    ∃ j, (destructAux 1 B0 0 W5).1.insts 0 = some j ∧
      j.isDestructing = false ∧ j.isDestructed = true :=
  claim6_amended.1 B0 0 0 W5 (freshInst "A" "x") (by decide) (by decide) (by decide)

/-- With a 10×10 viewport, margin 4 and a 50×50 tip, no position fits. -/
theorem fitsTiny (pos : TipPos) : fitsViewport 10 10 pos sizeC7 4 = false := by
  simp only [fitsViewport, sizeC7, decide_eq_false_iff_not]
  rintro ⟨h1, _, h3, _⟩
  linarith

/-- `firstFit` returns `none` when every candidate fails the viewport test. -/
theorem firstFit_none (vw vh : ℚ) (a : Rect) (s : TipSize) (offset : ℚ)
    (ps : List Placement)
    (h : ∀ p ∈ ps, fitsViewport vw vh (computePosition a s p offset) s 4 = false) :
    firstFit vw vh a s offset ps = none := by
  induction ps with
  | nil => rfl
  | cons p ps ih =>
    simp only [firstFit]
    rw [h p (by simp)]
    simp only [Bool.false_eq_true, if_false]
    exact ih (fun q hq => h q (by simp [hq]))

theorem cpPrefC7 : computePosition rectC7 sizeC7 prefC7 8 =
    { left := 100, top := 42 } := by
  simp only [computePosition, prefC7, rectC7, sizeC7, jsRound, toInt32, ratTrunc,
    Rect.right, Rect.bottom]
  norm_num [Int.floor_eq_iff]

theorem cpLastC7 : computePosition rectC7 sizeC7 lastC7 8 =
    { left := 128, top := 80 } := by
  simp only [computePosition, lastC7, rectC7, sizeC7, jsRound, toInt32, ratTrunc,
    Rect.right, Rect.bottom]
  norm_num [Int.floor_eq_iff]

/-- C7 counterexample: with a 20×10 anchor at (100,100), a 50×50 tip, offset 8
and a 10×10 viewport, no candidate placement fits; the last candidate evaluated
is `right/center`, yet the engine returns the preferred `top/start` placement
and its position, which differ from the last candidate and its position — the
"last candidate evaluated" fallback described by the claim does not happen. -/
theorem claim7_counterexample :
    (∀ p ∈ fallbackPlacements prefC7,
      fitsViewport 10 10 (computePosition rectC7 sizeC7 p 8) sizeC7 4 = false) ∧
    (fallbackPlacements prefC7).getLast? = some lastC7 ∧
    selectPlacement 10 10 rectC7 sizeC7 prefC7 8 =
      (computePosition rectC7 sizeC7 prefC7 8, prefC7) ∧
    prefC7 ≠ lastC7 ∧
    computePosition rectC7 sizeC7 prefC7 8 ≠ computePosition rectC7 sizeC7 lastC7 8 := by
  refine ⟨fun p _ => fitsTiny _, by decide, ?_, by decide, ?_⟩
  · have hnone : firstFit 10 10 rectC7 sizeC7 8
        (fallbackPlacements { side := Side.top, align := Align.start, auto := true }) = none :=
      firstFit_none 10 10 rectC7 sizeC7 8 (fallbackPlacements prefC7) (fun p _ => fitsTiny _)
    simp [selectPlacement, prefC7, hnone]
  · rw [cpPrefC7, cpLastC7]
    decide

/-- C7 (amended): the auto-mode candidate list has exactly the claimed order
(preferred first, then the two other alignments on the same side, then the
opposite side at the original alignment, then the two perpendicular sides at
center alignment); the loop returns the first candidate that fits the viewport
with margin 4; and when no candidate fits, the engine keeps the preferred
placement and its position — not the last candidate evaluated. -/
theorem claim7_amended :
    (∀ (s₀ : Side) (a₀ : Align),
      candidateOrderSpec s₀ a₀
        (fallbackPlacements { side := s₀, align := a₀, auto := true }) = true) ∧
    (∀ (vw vh : ℚ) (a : Rect) (s : TipSize) (offset : ℚ) (ps : List Placement),
      firstFit vw vh a s offset ps =
        (ps.find? (fun p => fitsViewport vw vh (computePosition a s p offset) s 4)).map
          (fun p => (computePosition a s p offset, p))) ∧
    (∀ (vw vh : ℚ) (a : Rect) (s : TipSize) (pref : Placement) (offset : ℚ),
      pref.auto = true →
      (∀ p ∈ fallbackPlacements pref,
        fitsViewport vw vh (computePosition a s p offset) s 4 = false) →
      selectPlacement vw vh a s pref offset =
        (computePosition a s pref offset, pref)) := by
  refine ⟨?_, ?_, ?_⟩
  · intro s₀ a₀
    cases s₀ <;> cases a₀ <;> decide
  · intro vw vh a s offset ps
    induction ps with
    | nil => rfl
    | cons p ps ih =>
      simp only [firstFit, List.find?]
      cases hf : fitsViewport vw vh (computePosition a s p offset) s 4 with
      | true => simp [hf]
      | false => simp [hf, ih]
  · intro vw vh a s pref offset hauto hfits
    have hnone := firstFit_none vw vh a s offset (fallbackPlacements pref) hfits
    simp [selectPlacement, hauto, hnone]

/-- Witness: the no-candidate-fits branch of the amended C7 at the concrete
tiny-viewport scenario. -/
theorem claim7_witness :
    selectPlacement 10 10 rectC7 sizeC7 prefC7 8 =
      (computePosition rectC7 sizeC7 prefC7 8, prefC7) :=
  claim7_amended.2.2 10 10 rectC7 sizeC7 prefC7 8 rfl
    (fun p _ => fitsTiny (computePosition rectC7 sizeC7 p 8))

/-- C8: the ownership marker is a single `data-light-name` value per element
(one `Option String` slot in the DOM model).  For a valid id and a vacant
registry slot: constructing on an element already marked by the *same* kind
succeeds and the marker is simply rewritten to that kind; constructing on an
element marked by a *different* (non-empty) kind fails with
`LightBase.CONFLICT_OWNER` before any mutation, leaving the existing marker in
place. -/
theorem claim8_ownership_marker (w : World) (cls id : String) (tag : Nat)
    (hvalid : id ≠ "" ∧ id.data.contains '#' = false)
    (hvac : w.reg (cls, id) = none) :
    (∀ cs, findById w.dom id = some (DomTree.node id (some cls) cs) →
      (construct w cls id tag).2 = none ∧
      markerAt (construct w cls id tag).1.dom id = some cls) ∧
    (∀ o cs, findById w.dom id = some (DomTree.node id (some o) cs) →
      o ≠ "" → o ≠ cls →
      construct w cls id tag = (w, some (Err.thrown "LightBase.CONFLICT_OWNER")) ∧
      markerAt (construct w cls id tag).1.dom id = some o) := by
  have hg : ¬¬(id ≠ "" ∧ id.data.contains '#' = false) := not_not_intro hvalid
  have hr : ¬((w.reg (cls, id)).isSome = true) := by simp [hvac]
  constructor
  · intro cs hfind
    have h2 : (construct w cls id tag).2 = none := by
      simp only [construct]
      rw [if_neg hg, if_neg hr, hfind]
      simp
    have hdom : (construct w cls id tag).1.dom = setMarkerById w.dom id cls := by
      simp only [construct]
      rw [if_neg hg, if_neg hr, hfind]
      simp [regPut]
    refine ⟨h2, ?_⟩
    rw [hdom]
    exact markerAt_setMarkerById w.dom id cls _ hfind
  · intro o cs hfind ho1 ho2
    have hc : construct w cls id tag =
        (w, some (Err.thrown "LightBase.CONFLICT_OWNER")) := by
      simp only [construct]
      rw [if_neg hg, if_neg hr, hfind]
      simp [ho1, ho2]
    refine ⟨hc, ?_⟩
    rw [hc]
    simp [markerAt, hfind]

/-- Witness: C8 at concrete worlds — re-attachment over a same-kind marker
succeeds and rewrites the marker; a different-kind marker is a conflict and
stays unchanged. -/
theorem claim8_witness :
    ((construct W8a "A" "x" 0).2 = none ∧
      markerAt (construct W8a "A" "x" 0).1.dom "x" = some "A") ∧
    (construct W8b "A" "x" 0 = (W8b, some (Err.thrown "LightBase.CONFLICT_OWNER")) ∧
      markerAt (construct W8b "A" "x" 0).1.dom "x" = some "B") := by
  constructor
  · exact (claim8_ownership_marker W8a "A" "x" 0 (by decide) rfl).1 [] rfl
  · exact (claim8_ownership_marker W8b "A" "x" 0 (by decide) rfl).2 "B" [] rfl
      (by decide) (by decide)

/-- C10: `addEvent` whose string selector target resolved to no element
(`document.querySelector` returned null) does not throw and performs no
subscription and no bookkeeping: the world is returned unchanged (listener
records, resource sets and the event log all untouched) and no removable
record is created, so the returned disposer is a no-op and destruction later
removes nothing for this call. -/
theorem claim10_addEvent_missing_target (w : World) (t : Nat) (etype : String)
    (sel : Option String) (handler : Nat) :
    addEvent w t none etype sel handler = (w, false) := rfl
